import Mathlib

/-!
# Query dispatcher of the `auto` middleware (`middleware/auto/auto.go`)

A shallow embedding of `Auto.ServeDNS`.  The handler is sequential code over
collaborators that live outside `auto.go` (the request helpers, the zone lookup,
the transfer path, the next handler, the message scrubber).  Those collaborators
are taken as parameters, bundled in `auto.Env`; the handler itself is translated
statement by statement.  Every interaction with a collaborator is recorded in an
event list so that "is invoked" and "is not invoked" can be stated.
-/

set_option autoImplicit false

/-! ## `github.com/miekg/dns`: constants and the message type -/

namespace dns

/-- Class `IN` (value 1 in the DNS class registry). -/
def ClassINET : Nat := 1

/-- Query type `IXFR`. -/
def TypeIXFR : Nat := 251

/-- Query type `AXFR`. -/
def TypeAXFR : Nat := 252

/-- Opcode `QUERY`. -/
def OpcodeQuery : Nat := 0

/-- Response code `NOERROR`. -/
def RcodeSuccess : Nat := 0

/-- Response code `SERVFAIL`. -/
def RcodeServerFailure : Nat := 2

/-- Response code `NXDOMAIN`. -/
def RcodeNameError : Nat := 3

/-- One entry of the question section. -/
structure Question where
  Name : String
  Qtype : Nat
  Qclass : Nat
deriving DecidableEq, Repr

/-- Modelled from the spec: the logical fields of `dns.Msg` (header bits, the
compression switch and the four sections); the type is declared in the wire
codec library, not under src/.  The defaults are Go's zero values, so `{}` is
`new(dns.Msg)`. -/
structure Msg (RR : Type) where
  Id : Nat := 0
  Response : Bool := false
  Opcode : Nat := 0
  Authoritative : Bool := false
  Truncated : Bool := false
  RecursionDesired : Bool := false
  RecursionAvailable : Bool := false
  Zero : Bool := false
  AuthenticatedData : Bool := false
  CheckingDisabled : Bool := false
  Rcode : Nat := 0
  Compress : Bool := false
  Question : List dns.Question := []
  Answer : List RR := []
  Ns : List RR := []
  Extra : List RR := []
deriving DecidableEq, Repr

/-- Modelled from the spec: `(*dns.Msg).SetReply`, declared in the wire codec
library and not under src/.  It turns the receiver into a reply to `request`:
same id and opcode, response bit set, rcode NOERROR, the recursion-desired and
checking-disabled bits copied for a standard query, and the first question
copied. -/
def Msg.SetReply {RR : Type} (m : Msg RR) (request : Msg RR) : Msg RR :=
  { m with
    Id := request.Id
    Response := true
    Opcode := request.Opcode
    RecursionDesired :=
      if request.Opcode = OpcodeQuery then request.RecursionDesired else m.RecursionDesired
    CheckingDisabled :=
      if request.Opcode = OpcodeQuery then request.CheckingDisabled else m.CheckingDisabled
    Rcode := RcodeSuccess
    Question := if 0 < request.Question.length then request.Question.take 1 else m.Question }

/-- Modelled from the spec: a `dns.ResponseWriter` seen through what it has been
asked to send, oldest message first; the interface is declared outside src/. -/
abbrev ResponseWriter (RR : Type) : Type := List (Msg RR)

/-- The effect of `w.WriteMsg(m)`: one more message delivered. -/
def ResponseWriter.WriteMsg {RR : Type} (w : ResponseWriter RR) (m : Msg RR) : ResponseWriter RR :=
  w ++ [m]

end dns

/-! ## Go error values -/

/-- A Go `error` value as a term: either created by `errors.New` or wrapped by
`middleware.Error`.  The nil error is `none` of `Option GoError`. -/
inductive GoError where
  | New (text : String)
  | Wrapped (name : String) (inner : GoError)
deriving DecidableEq, Repr

namespace errors

/-- The Go call `errors.New(text)`. -/
def New (text : String) : GoError := GoError.New text

end errors

/-! ## Package `file`: lookup results -/

namespace file

/-- Modelled from the spec: the closed result classification returned by a zone
lookup (`Success | NoData | NameError | Delegation | ServerFailure`); the type is
declared in package `file`, not under src/. -/
inductive Result where
  | Success
  | NameError
  | Delegation
  | NoData
  | ServerFailure
deriving DecidableEq, Repr

end file

/-! ## Package `request` -/

namespace request

/-- The value `request.Request{W: w, Req: r}` built on line 45. -/
structure Request (RR : Type) where
  W : dns.ResponseWriter RR
  Req : dns.Msg RR

end request

/-! ## Domain names and longest-suffix matching (package `middleware`) -/

namespace dns

/-- Worker of `SplitDomainName`: `cur` holds the characters of the label being
read, last character first. -/
def splitChars : List Char → List Char → List String
  | [], cur => if cur.isEmpty then [] else [String.mk cur.reverse]
  | c :: cs, cur =>
    if c = '.' then
      (if cur.isEmpty then splitChars cs [] else String.mk cur.reverse :: splitChars cs [])
    else splitChars cs (c :: cur)

/-- Modelled from the spec: the labels of a domain name, leftmost first
(`"a.example."` has the labels `a`, `example`; the root `"."` has none).  The
splitter belongs to the wire codec library, not under src/; escaped dots are not
modelled. -/
def SplitDomainName (s : String) : List String := splitChars s.data []

/-- Number of labels of a name. -/
def CountLabel (s : String) : Nat := (SplitDomainName s).length

/-- Modelled from the spec: `child` is equal to `parent` or a subdomain of it,
that is, the labels of `parent` are the trailing labels of `child`. -/
def IsSubDomain (parent child : String) : Bool :=
  (SplitDomainName parent).isSuffixOf (SplitDomainName child)

/-- Length of the longest common front part of two label lists. -/
def commonLabels : List String → List String → Nat
  | a :: as, b :: bs => if a = b then commonLabels as bs + 1 else 0
  | _, _ => 0

/-- Modelled from the spec: the number of matching trailing labels of two names
(`"a.example."` and `"x.a.example."` share two, `"b.example."` and
`"x.a.example."` share one). -/
def CompareDomainName (s1 s2 : String) : Nat :=
  commonLabels (SplitDomainName s1).reverse (SplitDomainName s2).reverse

end dns

namespace middleware

/-- Modelled from the spec: `middleware.Error`, which wraps an error with the
name of the middleware that raised it; declared outside src/. -/
def Error (name : String) (err : GoError) : GoError := GoError.Wrapped name err

/-- The Go type `middleware.Zones`, a list of zone names. -/
abbrev Zones : Type := List String

/-- A configured name is a candidate for `qname` when `qname` is equal to it or a
subdomain of it.  The empty string is the not-found signal of `Matches` and is
never a candidate. -/
def Zones.covers (zname qname : String) : Bool :=
  decide (zname ≠ "") && dns.IsSubDomain zname qname

/-- Loop of `Matches`: `best` is the winner among the names seen so far. -/
def Zones.matchesFrom (qname : String) : List String → Option String → Option String
  | [], best => best
  | zname :: rest, best =>
    if Zones.covers zname qname then
      match best with
      | none => Zones.matchesFrom qname rest (some zname)
      | some b =>
        if dns.CompareDomainName b qname < dns.CompareDomainName zname qname then
          Zones.matchesFrom qname rest (some zname)
        else Zones.matchesFrom qname rest (some b)
    else Zones.matchesFrom qname rest best

/-- Modelled from the spec: `middleware.Zones.Matches`, declared outside src/.
Longest-suffix match: among the configured names of which `qname` is equal or a
subdomain, the one with the greatest number of matching trailing labels wins
(the earlier one on a tie, which the spec leaves undefined); the empty string
when no configured name matches. -/
def Zones.Matches (z : Zones) (qname : String) : String :=
  (Zones.matchesFrom qname z none).getD ""

end middleware

/-! ## Package `auto` -/

namespace auto

/-- Modelled from the spec: the zone table `auto.Zones`, declared in this package
but outside src/: the mapping from zone name to zone reference (`none` as a value
is a nil pointer), the list of names served, the origin list, and the reader
count of the embedded reader/writer lock. -/
structure Zones (Zone : Type) where
  Z : List (String × Option Zone)
  names : List String
  origins : List String
  readers : Nat
deriving DecidableEq, Repr

/-- Modelled from the spec: `Names()`, a snapshot of the names currently served. -/
def Zones.Names {Zone : Type} (z : Zones Zone) : List String := z.names

/-- Modelled from the spec: `Origins()`, a snapshot of the origin list. -/
def Zones.Origins {Zone : Type} (z : Zones Zone) : List String := z.origins

/-- The call `RLock()`: one more reader holds the lock. -/
def Zones.RLock {Zone : Type} (z : Zones Zone) : Zones Zone :=
  { z with readers := z.readers + 1 }

/-- The call `RUnlock()`: one reader releases the lock. -/
def Zones.RUnlock {Zone : Type} (z : Zones Zone) : Zones Zone :=
  { z with readers := z.readers - 1 }

/-- The result of a handler call: the `(int, error)` pair. -/
abbrev Status : Type := Nat × Option GoError

/-- A `middleware.Handler`: given the context, the writer and the request it
returns its status and leaves the writer in a new state. -/
abbrev Handler (Ctx RR : Type) : Type :=
  Ctx → dns.ResponseWriter RR → dns.Msg RR → Status × dns.ResponseWriter RR

/-- The fields of `loader` (lines 29 to 40); the regular expression is kept as
its pattern, the duration as a number, and the proxy handle is left out. -/
structure loader where
  directory : String
  template : String
  re : String
  transferTo : List String
  noReload : Bool
  duration : Nat
deriving DecidableEq, Repr

/-- The struct `Auto` (lines 21 to 27); a nil `Next` is `none`.  The metrics
handle is left out. -/
structure Auto (Ctx Zone RR : Type) where
  Next : Option (Handler Ctx RR)
  Zones : Zones Zone
  loader : loader

/-- The method `Name` (line 100). -/
def Auto.Name : String := "auto"

/-- The collaborators `ServeDNS` calls that are declared outside src/: the
request helpers, the zone lookup, the transfer path and the next-handler
dispatch. -/
structure Env (Ctx Zone RR : Type) where
  /-- Method `request.Request.QClass`. -/
  QClass : request.Request RR → Nat
  /-- Method `request.Request.QType`. -/
  QType : request.Request RR → Nat
  /-- Method `request.Request.Name`. -/
  Name : request.Request RR → String
  /-- Method `request.Request.SizeAndDo`; it updates the message in place, given
  here as the message afterwards. -/
  SizeAndDo : request.Request RR → dns.Msg RR → dns.Msg RR
  /-- Method `request.Request.Scrub`; the second component is discarded by the caller. -/
  Scrub : request.Request RR → dns.Msg RR → dns.Msg RR × Nat
  /-- Method `file.Zone.Lookup`. -/
  Lookup : Zone → request.Request RR → String → List RR × List RR × List RR × file.Result
  /-- Method `file.Xfr.ServeDNS` of `file.Xfr{Zone: z}`. -/
  XfrServeDNS : Zone → Handler Ctx RR
  /-- Function `middleware.NextOrFailure`. -/
  NextOrFailure : String → Option (Handler Ctx RR) → Handler Ctx RR

/-- One interaction of `ServeDNS` with the zone table or a collaborator. -/
inductive Call (Ctx Zone RR : Type) where
  /-- Line 54: `a.Zones.Origins()`. -/
  | Origins
  /-- Line 60: `a.Zones.Names()`. -/
  | Names
  /-- Line 63: the map read `a.Zones.Z[zone]`. -/
  | Z (zone : String)
  /-- Line 56: `middleware.NextOrFailure(a.Name(), a.Next, ctx, w, r)`. -/
  | NextOrFailure (ctx : Ctx) (r : dns.Msg RR)
  /-- Line 72: `xfr.ServeDNS(ctx, w, r)` with `xfr := file.Xfr{Zone: z}`. -/
  | Xfr (z : Zone) (ctx : Ctx) (r : dns.Msg RR)
  /-- Line 75: `z.Lookup(state, qname)`. -/
  | Lookup (z : Zone) (qname : String)
  /-- Line 93: `state.SizeAndDo(m)`. -/
  | SizeAndDo (m : dns.Msg RR)
  /-- Line 94: `state.Scrub(m)`. -/
  | Scrub (m : dns.Msg RR)
  /-- Line 95: `w.WriteMsg(m)`. -/
  | WriteMsg (m : dns.Msg RR)
deriving DecidableEq, Repr

/-- What a run of `ServeDNS` leaves behind: the returned `(int, error)`, the
writer, the zone table, and the interactions in the order they happened. -/
structure Outcome (Ctx Zone RR : Type) where
  rcode : Nat
  err : Option GoError
  w : dns.ResponseWriter RR
  zones : Zones Zone
  calls : List (Call Ctx Zone RR)
deriving DecidableEq, Repr

/-- The method `Auto.ServeDNS` (lines 44 to 97). -/
def Auto.ServeDNS {Ctx Zone RR : Type} (env : Env Ctx Zone RR) (a : Auto Ctx Zone RR)
    (ctx : Ctx) (w : dns.ResponseWriter RR) (r : dns.Msg RR) : Outcome Ctx Zone RR :=
  let state : request.Request RR := { W := w, Req := r }
  if env.QClass state ≠ dns.ClassINET then
    { rcode := dns.RcodeServerFailure
      err := some (middleware.Error Auto.Name (errors.New "can only deal with ClassINET"))
      w := w, zones := a.Zones, calls := [] }
  else
    let qname := env.Name state
    -- Precheck with the origins.
    let zone := middleware.Zones.Matches a.Zones.Origins qname
    if zone = "" then
      let res := env.NextOrFailure Auto.Name a.Next ctx w r
      { rcode := res.1.1, err := res.1.2, w := res.2, zones := a.Zones
        calls := [Call.Origins, Call.NextOrFailure ctx r] }
    else
      -- Now the real zone.
      let zone := middleware.Zones.Matches a.Zones.Names qname
      let locked := a.Zones.RLock
      let entry := locked.Z.lookup zone
      let zones := locked.RUnlock
      match entry with
      | none | some none =>
        { rcode := dns.RcodeServerFailure, err := none, w := w, zones := zones
          calls := [Call.Origins, Call.Names, Call.Z zone] }
      | some (some z) =>
        if env.QType state = dns.TypeAXFR ∨ env.QType state = dns.TypeIXFR then
          let res := env.XfrServeDNS z ctx w r
          { rcode := res.1.1, err := res.1.2, w := res.2, zones := zones
            calls := [Call.Origins, Call.Names, Call.Z zone, Call.Xfr z ctx r] }
        else
          let looked := env.Lookup z state qname
          let answer := looked.1
          let ns := looked.2.1
          let extra := looked.2.2.1
          let result := looked.2.2.2
          let m : dns.Msg RR := {}
          let m := m.SetReply r
          let m := { m with Authoritative := true, RecursionAvailable := true, Compress := true }
          let m := { m with Answer := answer, Ns := ns, Extra := extra }
          let switched : Option (dns.Msg RR) :=
            match result with
            | file.Result.Success => some m
            | file.Result.NoData => some m
            | file.Result.NameError => some { m with Rcode := dns.RcodeNameError }
            | file.Result.Delegation => some { m with Authoritative := false }
            | file.Result.ServerFailure => none
          match switched with
          | none =>
            { rcode := dns.RcodeServerFailure, err := none, w := w, zones := zones
              calls := [Call.Origins, Call.Names, Call.Z zone, Call.Lookup z qname] }
          | some m =>
            let sized := env.SizeAndDo state m
            let scrubbed := (env.Scrub state sized).1
            { rcode := dns.RcodeSuccess, err := none, w := w.WriteMsg scrubbed, zones := zones
              calls := [Call.Origins, Call.Names, Call.Z zone, Call.Lookup z qname,
                Call.SizeAndDo m, Call.Scrub sized, Call.WriteMsg scrubbed] }

/-- The message handed to `SizeAndDo` in a run, that is, the assembled answer
before size adjustment and scrub; `none` when no answer was assembled. -/
def assembled {Ctx Zone RR : Type} : List (Call Ctx Zone RR) → Option (dns.Msg RR)
  | [] => none
  | Call.SizeAndDo m :: _ => some m
  | _ :: rest => assembled rest

/-- The messages `ServeDNS` itself handed to `WriteMsg` in a run. -/
def written {Ctx Zone RR : Type} : List (Call Ctx Zone RR) → List (dns.Msg RR)
  | [] => []
  | Call.WriteMsg m :: rest => m :: written rest
  | _ :: rest => written rest

/-- Lines 77 to 80: the message assembled from the request and the three record
sets, before the switch on the lookup result. -/
def replyWith {RR : Type} (r : dns.Msg RR) (answer ns extra : List RR) : dns.Msg RR :=
  { ({} : dns.Msg RR).SetReply r with
    Authoritative := true, RecursionAvailable := true, Compress := true
    Answer := answer, Ns := ns, Extra := extra }

/-- Lines 82 to 91: what the switch makes of the message, `none` for the early
return. -/
def switchOn {RR : Type} (m : dns.Msg RR) : file.Result → Option (dns.Msg RR)
  | file.Result.Success => some m
  | file.Result.NoData => some m
  | file.Result.NameError => some { m with Rcode := dns.RcodeNameError }
  | file.Result.Delegation => some { m with Authoritative := false }
  | file.Result.ServerFailure => none

/-- Whether the event is the hand-over to the next handler. -/
def Call.isNext {Ctx Zone RR : Type} : Call Ctx Zone RR → Bool
  | Call.NextOrFailure _ _ => true
  | _ => false

/-- Whether the event is a call of the transfer path. -/
def Call.isXfr {Ctx Zone RR : Type} : Call Ctx Zone RR → Bool
  | Call.Xfr _ _ _ => true
  | _ => false

/-- Whether the event is a zone lookup. -/
def Call.isLookup {Ctx Zone RR : Type} : Call Ctx Zone RR → Bool
  | Call.Lookup _ _ => true
  | _ => false

/-- Whether the event is a read of a zone table entry. -/
def Call.isZ {Ctx Zone RR : Type} : Call Ctx Zone RR → Bool
  | Call.Z _ => true
  | _ => false

end auto

/-! ## A concrete deployment used to exercise the definitions -/

namespace auto

/-- A query message with one question. -/
def sampleQuery (name : String) (qtype qclass : Nat) : dns.Msg String :=
  { Id := 7, RecursionDesired := true, Question := [{ Name := name, Qtype := qtype, Qclass := qclass }] }

/-- A next handler that answers REFUSED (rcode 5) itself. -/
def sampleNext : Handler Unit String :=
  fun _ w r => ((dns.RcodeSuccess, none), w.WriteMsg { ({} : dns.Msg String).SetReply r with Rcode := 5 })

/-- Collaborators for the sample deployment: the request helpers read the first
question, every zone lookup returns `found`, the transfer path sends one message
holding the zone, and the size adjustment and scrub leave the message as it is. -/
def sampleEnv (found : List String × List String × List String × file.Result) :
    Env Unit String String where
  QClass st := match st.Req.Question with
    | [] => 0
    | q :: _ => q.Qclass
  QType st := match st.Req.Question with
    | [] => 0
    | q :: _ => q.Qtype
  Name st := match st.Req.Question with
    | [] => "."
    | q :: _ => q.Name
  SizeAndDo _ m := m
  Scrub _ m := (m, 0)
  Lookup _ _ _ := found
  XfrServeDNS z _ w r :=
    ((dns.RcodeSuccess, none), w.WriteMsg { ({} : dns.Msg String).SetReply r with Answer := [z] })
  NextOrFailure name next ctx w r := match next with
    | some h => h ctx w r
    | none => ((dns.RcodeServerFailure, some (middleware.Error name (errors.New "no next middleware found"))), w)

/-- The loader settings of the sample deployment. -/
def sampleLoader : loader :=
  { directory := "/etc/zones", template := "${1}", re := "db\\.(.*)", transferTo := [],
    noReload := false, duration := 60 }

/-- One zone, `example.`, served under the origin `example.`. -/
def sampleAuto : Auto Unit String String :=
  { Next := some sampleNext
    Zones := { Z := [("example.", some "zone example.")], names := ["example."],
               origins := ["example."], readers := 0 }
    loader := sampleLoader }

/-- Two overlapping zones, `example.` and `a.example.`, under the origin `example.`. -/
def overlapAuto : Auto Unit String String :=
  { Next := some sampleNext
    Zones := { Z := [("example.", some "zone example."), ("a.example.", some "zone a.example.")],
               names := ["example.", "a.example."],
               origins := ["example."], readers := 0 }
    loader := sampleLoader }

/-- The origin `example.` is configured but the table is empty. -/
def emptyAuto : Auto Unit String String :=
  { Next := some sampleNext
    Zones := { Z := [], names := [], origins := ["example."], readers := 0 }
    loader := sampleLoader }

/-- Collaborators that tell the zones apart: the lookup of a zone succeeds with
one answer record naming the zone and one authority record naming the query
name, and the transfer path of a zone sends one message holding the zone. -/
def zoneEnv : Env Unit String String where
  QClass st := match st.Req.Question with
    | [] => 0
    | q :: _ => q.Qclass
  QType st := match st.Req.Question with
    | [] => 0
    | q :: _ => q.Qtype
  Name st := match st.Req.Question with
    | [] => "."
    | q :: _ => q.Name
  SizeAndDo _ m := m
  Scrub _ m := (m, 0)
  Lookup z _ qname := ([z], [qname], [], file.Result.Success)
  XfrServeDNS z _ w r :=
    ((dns.RcodeSuccess, none), w.WriteMsg { ({} : dns.Msg String).SetReply r with Answer := [z] })
  NextOrFailure name next ctx w r := match next with
    | some h => h ctx w r
    | none => ((dns.RcodeServerFailure, some (middleware.Error name (errors.New "no next middleware found"))), w)

end auto

/-! ## The run of `ServeDNS` on each path -/

namespace auto

section paths

variable {Ctx Zone RR : Type}

/-- Taking and releasing the read lock leaves the table as it was. -/
theorem Zones.RUnlock_RLock (z : Zones Zone) : z.RLock.RUnlock = z := by
  cases z
  simp [Zones.RLock, Zones.RUnlock]

/-- Taking the read lock does not change the map. -/
theorem Zones.RLock_Z (z : Zones Zone) : z.RLock.Z = z.Z := rfl

/-- Line 46 to 48: the run for a query of another class. -/
theorem ServeDNS_class (env : Env Ctx Zone RR) (a : Auto Ctx Zone RR) (ctx : Ctx)
    (w : dns.ResponseWriter RR) (r : dns.Msg RR)
    (hc : env.QClass { W := w, Req := r } ≠ dns.ClassINET) :
    Auto.ServeDNS env a ctx w r =
      { rcode := dns.RcodeServerFailure
        err := some (middleware.Error Auto.Name (errors.New "can only deal with ClassINET"))
        w := w, zones := a.Zones, calls := [] } := by
  simp [Auto.ServeDNS, hc]

/-- Line 54 to 57: the run when no origin matches. -/
theorem ServeDNS_forward (env : Env Ctx Zone RR) (a : Auto Ctx Zone RR) (ctx : Ctx)
    (w : dns.ResponseWriter RR) (r : dns.Msg RR)
    (hc : env.QClass { W := w, Req := r } = dns.ClassINET)
    (hm : middleware.Zones.Matches a.Zones.Origins (env.Name { W := w, Req := r }) = "") :
    Auto.ServeDNS env a ctx w r =
      { rcode := (env.NextOrFailure Auto.Name a.Next ctx w r).1.1
        err := (env.NextOrFailure Auto.Name a.Next ctx w r).1.2
        w := (env.NextOrFailure Auto.Name a.Next ctx w r).2
        zones := a.Zones
        calls := [Call.Origins, Call.NextOrFailure ctx r] } := by
  simp [Auto.ServeDNS, hc, hm]

/-- Line 60 to 68: the run when the selected name has no usable table entry. -/
theorem ServeDNS_missing (env : Env Ctx Zone RR) (a : Auto Ctx Zone RR) (ctx : Ctx)
    (w : dns.ResponseWriter RR) (r : dns.Msg RR)
    (hc : env.QClass { W := w, Req := r } = dns.ClassINET)
    (hm : middleware.Zones.Matches a.Zones.Origins (env.Name { W := w, Req := r }) ≠ "")
    (hz : a.Zones.Z.lookup
        (middleware.Zones.Matches a.Zones.Names (env.Name { W := w, Req := r })) = none ∨
      a.Zones.Z.lookup
        (middleware.Zones.Matches a.Zones.Names (env.Name { W := w, Req := r })) = some none) :
    Auto.ServeDNS env a ctx w r =
      { rcode := dns.RcodeServerFailure, err := none, w := w, zones := a.Zones
        calls := [Call.Origins, Call.Names,
          Call.Z (middleware.Zones.Matches a.Zones.Names (env.Name { W := w, Req := r }))] } := by
  rcases hz with hz | hz <;>
    simp [Auto.ServeDNS, hc, hm, hz, Zones.RLock_Z, Zones.RUnlock_RLock]

/-- Line 70 to 73: the run for a transfer query on a present zone. -/
theorem ServeDNS_xfr (env : Env Ctx Zone RR) (a : Auto Ctx Zone RR) (ctx : Ctx)
    (w : dns.ResponseWriter RR) (r : dns.Msg RR) (z : Zone)
    (hc : env.QClass { W := w, Req := r } = dns.ClassINET)
    (hm : middleware.Zones.Matches a.Zones.Origins (env.Name { W := w, Req := r }) ≠ "")
    (hz : a.Zones.Z.lookup
        (middleware.Zones.Matches a.Zones.Names (env.Name { W := w, Req := r })) = some (some z))
    (hq : env.QType { W := w, Req := r } = dns.TypeAXFR ∨
      env.QType { W := w, Req := r } = dns.TypeIXFR) :
    Auto.ServeDNS env a ctx w r =
      { rcode := (env.XfrServeDNS z ctx w r).1.1
        err := (env.XfrServeDNS z ctx w r).1.2
        w := (env.XfrServeDNS z ctx w r).2
        zones := a.Zones
        calls := [Call.Origins, Call.Names,
          Call.Z (middleware.Zones.Matches a.Zones.Names (env.Name { W := w, Req := r })),
          Call.Xfr z ctx r] } := by
  simp [Auto.ServeDNS, hc, hm, hz, hq, Zones.RLock_Z, Zones.RUnlock_RLock]

end paths

end auto

namespace auto

section answer

variable {Ctx Zone RR : Type}

/-- Line 75 to 91: the run when the lookup reports a server failure. -/
theorem ServeDNS_lookup_failure (env : Env Ctx Zone RR) (a : Auto Ctx Zone RR) (ctx : Ctx)
    (w : dns.ResponseWriter RR) (r : dns.Msg RR) (z : Zone)
    (hc : env.QClass { W := w, Req := r } = dns.ClassINET)
    (hm : middleware.Zones.Matches a.Zones.Origins (env.Name { W := w, Req := r }) ≠ "")
    (hz : a.Zones.Z.lookup
        (middleware.Zones.Matches a.Zones.Names (env.Name { W := w, Req := r })) = some (some z))
    (hq : ¬ (env.QType { W := w, Req := r } = dns.TypeAXFR ∨
      env.QType { W := w, Req := r } = dns.TypeIXFR))
    (hr : (env.Lookup z { W := w, Req := r } (env.Name { W := w, Req := r })).2.2.2 =
      file.Result.ServerFailure) :
    Auto.ServeDNS env a ctx w r =
      { rcode := dns.RcodeServerFailure, err := none, w := w, zones := a.Zones
        calls := [Call.Origins, Call.Names,
          Call.Z (middleware.Zones.Matches a.Zones.Names (env.Name { W := w, Req := r })),
          Call.Lookup z (env.Name { W := w, Req := r })] } := by
  simp only [not_or] at hq
  simp [Auto.ServeDNS, hc, hm, hz, hq.1, hq.2, hr, Zones.RLock_Z, Zones.RUnlock_RLock]

/-- Line 75 to 96: the run when the lookup reports anything but a server failure:
the switched message is size-adjusted, scrubbed and written. -/
theorem ServeDNS_answer (env : Env Ctx Zone RR) (a : Auto Ctx Zone RR) (ctx : Ctx)
    (w : dns.ResponseWriter RR) (r : dns.Msg RR) (z : Zone) (m : dns.Msg RR)
    (hc : env.QClass { W := w, Req := r } = dns.ClassINET)
    (hm : middleware.Zones.Matches a.Zones.Origins (env.Name { W := w, Req := r }) ≠ "")
    (hz : a.Zones.Z.lookup
        (middleware.Zones.Matches a.Zones.Names (env.Name { W := w, Req := r })) = some (some z))
    (hq : ¬ (env.QType { W := w, Req := r } = dns.TypeAXFR ∨
      env.QType { W := w, Req := r } = dns.TypeIXFR))
    (hs : switchOn
        (replyWith r (env.Lookup z { W := w, Req := r } (env.Name { W := w, Req := r })).1
          (env.Lookup z { W := w, Req := r } (env.Name { W := w, Req := r })).2.1
          (env.Lookup z { W := w, Req := r } (env.Name { W := w, Req := r })).2.2.1)
        (env.Lookup z { W := w, Req := r } (env.Name { W := w, Req := r })).2.2.2 = some m) :
    Auto.ServeDNS env a ctx w r =
      { rcode := dns.RcodeSuccess, err := none
        w := w.WriteMsg (env.Scrub { W := w, Req := r } (env.SizeAndDo { W := w, Req := r } m)).1
        zones := a.Zones
        calls := [Call.Origins, Call.Names,
          Call.Z (middleware.Zones.Matches a.Zones.Names (env.Name { W := w, Req := r })),
          Call.Lookup z (env.Name { W := w, Req := r }),
          Call.SizeAndDo m,
          Call.Scrub (env.SizeAndDo { W := w, Req := r } m),
          Call.WriteMsg (env.Scrub { W := w, Req := r } (env.SizeAndDo { W := w, Req := r } m)).1] } := by
  simp only [not_or] at hq
  generalize hL : env.Lookup z { W := w, Req := r } (env.Name { W := w, Req := r }) = looked at hs
  obtain ⟨answer, ns, extra, result⟩ := looked
  cases result <;>
    simp [switchOn, replyWith] at hs <;>
    subst hs <;>
    simp [Auto.ServeDNS, hc, hm, hz, hq.1, hq.2, hL, Zones.RLock_Z, Zones.RUnlock_RLock]

end answer

end auto

/-! ## Longest-suffix match -/

namespace middleware

/-- A covering name is not the empty string. -/
theorem Zones.covers_ne_empty {zname qname : String} (h : Zones.covers zname qname = true) :
    zname ≠ "" := by
  simp only [Zones.covers, Bool.and_eq_true, decide_eq_true_eq] at h
  exact h.1

/-- The loop ends without a winner exactly when it started without one and no
name of the list covers the query name. -/
theorem Zones.matchesFrom_eq_none (qname : String) (l : List String) (best : Option String) :
    Zones.matchesFrom qname l best = none ↔
      best = none ∧ ∀ n ∈ l, Zones.covers n qname = false := by
  induction l generalizing best with
  | nil => simp [Zones.matchesFrom]
  | cons x xs ih =>
    by_cases hx : Zones.covers x qname = true
    · cases best with
      | none => simp [Zones.matchesFrom, hx, ih]
      | some b =>
        by_cases hlt : dns.CompareDomainName b qname < dns.CompareDomainName x qname <;>
          simp [Zones.matchesFrom, hx, hlt, ih]
    · simp only [Bool.not_eq_true] at hx
      simp [Zones.matchesFrom, hx, ih]

/-- The winner of the loop is the starting winner or a covering name of the list,
and no starting winner and no covering name of the list has more matching
trailing labels. -/
theorem Zones.matchesFrom_eq_some (qname : String) (l : List String) (best : Option String)
    (s : String) (h : Zones.matchesFrom qname l best = some s) :
    (best = some s ∨ (s ∈ l ∧ Zones.covers s qname = true)) ∧
    (∀ b, best = some b → dns.CompareDomainName b qname ≤ dns.CompareDomainName s qname) ∧
    (∀ n ∈ l, Zones.covers n qname = true →
      dns.CompareDomainName n qname ≤ dns.CompareDomainName s qname) := by
  induction l generalizing best with
  | nil =>
    simp only [Zones.matchesFrom] at h
    subst h
    simp
  | cons x xs ih =>
    by_cases hx : Zones.covers x qname = true
    · cases best with
      | none =>
        simp only [Zones.matchesFrom, hx, if_true] at h
        obtain ⟨h1, h2, h3⟩ := ih _ h
        refine ⟨Or.inr ?_, by simp, ?_⟩
        · rcases h1 with h1 | h1
          · simp only [Option.some.injEq] at h1
            subst h1
            exact ⟨List.mem_cons_self _ _, hx⟩
          · exact ⟨List.mem_cons_of_mem _ h1.1, h1.2⟩
        · intro n hn hcov
          rcases List.mem_cons.mp hn with hn | hn
          · subst hn
            exact h2 _ rfl
          · exact h3 n hn hcov
      | some b =>
        by_cases hlt : dns.CompareDomainName b qname < dns.CompareDomainName x qname
        · simp only [Zones.matchesFrom, hx, hlt, if_true] at h
          obtain ⟨h1, h2, h3⟩ := ih _ h
          refine ⟨Or.inr ?_, ?_, ?_⟩
          · rcases h1 with h1 | h1
            · simp only [Option.some.injEq] at h1
              subst h1
              exact ⟨List.mem_cons_self _ _, hx⟩
            · exact ⟨List.mem_cons_of_mem _ h1.1, h1.2⟩
          · intro b' hb'
            simp only [Option.some.injEq] at hb'
            subst hb'
            exact Nat.le_trans (Nat.le_of_lt hlt) (h2 _ rfl)
          · intro n hn hcov
            rcases List.mem_cons.mp hn with hn | hn
            · subst hn
              exact h2 _ rfl
            · exact h3 n hn hcov
        · simp only [Zones.matchesFrom, hx, hlt, if_true, if_false] at h
          obtain ⟨h1, h2, h3⟩ := ih _ h
          refine ⟨?_, h2, ?_⟩
          · rcases h1 with h1 | h1
            · exact Or.inl h1
            · exact Or.inr ⟨List.mem_cons_of_mem _ h1.1, h1.2⟩
          · intro n hn hcov
            rcases List.mem_cons.mp hn with hn | hn
            · subst hn
              exact Nat.le_trans (Nat.le_of_not_lt hlt) (h2 _ rfl)
            · exact h3 n hn hcov
    · have hx' : Zones.covers x qname = false := by simpa using hx
      simp only [Zones.matchesFrom, hx', Bool.false_eq_true, if_false] at h
      obtain ⟨h1, h2, h3⟩ := ih _ h
      refine ⟨?_, h2, ?_⟩
      · rcases h1 with h1 | h1
        · exact Or.inl h1
        · exact Or.inr ⟨List.mem_cons_of_mem _ h1.1, h1.2⟩
      · intro n hn hcov
        rcases List.mem_cons.mp hn with hn | hn
        · subst hn
          rw [hx'] at hcov
          exact absurd hcov (by simp)
        · exact h3 n hn hcov

/-- Two label lists of which the first is a front part of the second share the
whole first list. -/
theorem commonLabels_append (p t : List String) : dns.commonLabels p (p ++ t) = p.length := by
  induction p with
  | nil => cases t <;> simp [dns.commonLabels]
  | cons x xs ih => simp [dns.commonLabels, ih]

/-- A covering name matches the query name with all of its labels. -/
theorem Zones.covers_compare {zname qname : String} (h : Zones.covers zname qname = true) :
    dns.CompareDomainName zname qname = dns.CountLabel zname := by
  simp only [Zones.covers, Bool.and_eq_true, decide_eq_true_eq, dns.IsSubDomain,
    List.isSuffixOf_iff_suffix] at h
  obtain ⟨t, ht⟩ := h.2
  unfold dns.CompareDomainName dns.CountLabel
  rw [← ht, List.reverse_append, commonLabels_append, List.length_reverse]

/-- `Matches` returns the empty string exactly when no configured name covers the
query name. -/
theorem Zones.Matches_eq_empty_iff (z : Zones) (qname : String) :
    Zones.Matches z qname = "" ↔ ∀ n ∈ z, Zones.covers n qname = false := by
  unfold Zones.Matches
  cases hres : Zones.matchesFrom qname z none with
  | none =>
    have := (Zones.matchesFrom_eq_none qname z none).mp hres
    simpa using this.2
  | some s =>
    obtain ⟨h1, _, _⟩ := Zones.matchesFrom_eq_some qname z none s hres
    rcases h1 with h1 | h1
    · exact absurd h1 (by simp)
    · simp only [Option.getD_some]
      constructor
      · intro hs
        exact absurd hs (Zones.covers_ne_empty h1.2)
      · intro hall
        have := hall s h1.1
        rw [h1.2] at this
        exact absurd this (by simp)

/-- When some configured name covers the query name, `Matches` returns a
configured covering name that no other configured covering name beats in the
number of matching trailing labels. -/
theorem Zones.Matches_longest (z : Zones) (qname : String)
    (h : ∃ n ∈ z, Zones.covers n qname = true) :
    Zones.Matches z qname ∈ z ∧ Zones.covers (Zones.Matches z qname) qname = true ∧
    ∀ n ∈ z, Zones.covers n qname = true →
      dns.CompareDomainName n qname ≤ dns.CompareDomainName (Zones.Matches z qname) qname := by
  unfold Zones.Matches
  cases hres : Zones.matchesFrom qname z none with
  | none =>
    obtain ⟨n, hn, hcov⟩ := h
    have := ((Zones.matchesFrom_eq_none qname z none).mp hres).2 n hn
    rw [hcov] at this
    exact absurd this (by simp)
  | some s =>
    obtain ⟨h1, _, h3⟩ := Zones.matchesFrom_eq_some qname z none s hres
    rcases h1 with h1 | h1
    · exact absurd h1 (by simp)
    · exact ⟨h1.1, h1.2, h3⟩

/-- A configured covering name that strictly beats every other configured covering
name is the one `Matches` returns. -/
theorem Zones.Matches_eq_of_strict (z : Zones) (qname n : String) (hn : n ∈ z)
    (hcov : Zones.covers n qname = true)
    (hbest : ∀ k ∈ z, Zones.covers k qname = true → k ≠ n →
      dns.CompareDomainName k qname < dns.CompareDomainName n qname) :
    Zones.Matches z qname = n := by
  obtain ⟨h1, h2, h3⟩ := Zones.Matches_longest z qname ⟨n, hn, hcov⟩
  by_contra hne
  have hlt := hbest _ h1 h2 hne
  have hle := h3 n hn hcov
  omega

end middleware

/-! ## The dispatcher contract -/

namespace auto

section contract

variable {Ctx Zone RR : Type}

/-- The switch returns early exactly for the result `ServerFailure`. -/
theorem switchOn_eq_none_iff (m : dns.Msg RR) (res : file.Result) :
    switchOn m res = none ↔ res = file.Result.ServerFailure := by
  cases res <;> simp [switchOn]

/-- Every run of `ServeDNS` follows one of its six paths; the events of the run
are, in order: nothing; the origin read and the hand-over; the two name reads and
the entry read; these and the transfer call; these and the lookup; these, the
lookup, the size adjustment, the scrub and the write. -/
theorem ServeDNS_calls_cases (env : Env Ctx Zone RR) (a : Auto Ctx Zone RR) (ctx : Ctx)
    (w : dns.ResponseWriter RR) (r : dns.Msg RR) :
    (Auto.ServeDNS env a ctx w r).calls = [] ∨
    (Auto.ServeDNS env a ctx w r).calls = [Call.Origins, Call.NextOrFailure ctx r] ∨
    (∃ zone, (Auto.ServeDNS env a ctx w r).calls = [Call.Origins, Call.Names, Call.Z zone]) ∨
    (∃ zone z, (Auto.ServeDNS env a ctx w r).calls =
      [Call.Origins, Call.Names, Call.Z zone, Call.Xfr z ctx r]) ∨
    (∃ zone z qname, (Auto.ServeDNS env a ctx w r).calls =
      [Call.Origins, Call.Names, Call.Z zone, Call.Lookup z qname]) ∨
    (∃ zone z qname m m1 m2, (Auto.ServeDNS env a ctx w r).calls =
      [Call.Origins, Call.Names, Call.Z zone, Call.Lookup z qname,
        Call.SizeAndDo m, Call.Scrub m1, Call.WriteMsg m2]) := by
  by_cases hc : env.QClass { W := w, Req := r } = dns.ClassINET
  · by_cases hm : middleware.Zones.Matches a.Zones.Origins (env.Name { W := w, Req := r }) = ""
    · rw [ServeDNS_forward env a ctx w r hc hm]
      exact Or.inr (Or.inl rfl)
    · cases hz : a.Zones.Z.lookup
          (middleware.Zones.Matches a.Zones.Names (env.Name { W := w, Req := r })) with
      | none =>
        rw [ServeDNS_missing env a ctx w r hc hm (Or.inl hz)]
        exact Or.inr (Or.inr (Or.inl ⟨_, rfl⟩))
      | some entry =>
        cases entry with
        | none =>
          rw [ServeDNS_missing env a ctx w r hc hm (Or.inr hz)]
          exact Or.inr (Or.inr (Or.inl ⟨_, rfl⟩))
        | some z =>
          by_cases hq : env.QType { W := w, Req := r } = dns.TypeAXFR ∨
              env.QType { W := w, Req := r } = dns.TypeIXFR
          · rw [ServeDNS_xfr env a ctx w r z hc hm hz hq]
            exact Or.inr (Or.inr (Or.inr (Or.inl ⟨_, _, rfl⟩)))
          · cases hs : switchOn
                (replyWith r (env.Lookup z { W := w, Req := r } (env.Name { W := w, Req := r })).1
                  (env.Lookup z { W := w, Req := r } (env.Name { W := w, Req := r })).2.1
                  (env.Lookup z { W := w, Req := r } (env.Name { W := w, Req := r })).2.2.1)
                (env.Lookup z { W := w, Req := r } (env.Name { W := w, Req := r })).2.2.2 with
            | none =>
              rw [ServeDNS_lookup_failure env a ctx w r z hc hm hz hq
                ((switchOn_eq_none_iff _ _).mp hs)]
              exact Or.inr (Or.inr (Or.inr (Or.inr (Or.inl ⟨_, _, _, rfl⟩))))
            | some m =>
              rw [ServeDNS_answer env a ctx w r z m hc hm hz hq hs]
              exact Or.inr (Or.inr (Or.inr (Or.inr (Or.inr ⟨_, _, _, _, _, _, rfl⟩))))
  · rw [ServeDNS_class env a ctx w r hc]
    exact Or.inl rfl

/-- A hand-over to the next handler appears among the events of a run only when
the query is of class INET and no origin matches its name. -/
theorem ServeDNS_next_only_unmatched (env : Env Ctx Zone RR) (a : Auto Ctx Zone RR) (ctx : Ctx)
    (w : dns.ResponseWriter RR) (r : dns.Msg RR)
    (h : ∃ c ∈ (Auto.ServeDNS env a ctx w r).calls, c.isNext = true) :
    env.QClass { W := w, Req := r } = dns.ClassINET ∧
      middleware.Zones.Matches a.Zones.Origins (env.Name { W := w, Req := r }) = "" := by
  by_cases hc : env.QClass { W := w, Req := r } = dns.ClassINET
  · by_cases hm : middleware.Zones.Matches a.Zones.Origins (env.Name { W := w, Req := r }) = ""
    · exact ⟨hc, hm⟩
    · exfalso
      obtain ⟨c, hmem, hnext⟩ := h
      cases hz : a.Zones.Z.lookup
          (middleware.Zones.Matches a.Zones.Names (env.Name { W := w, Req := r })) with
      | none =>
        rw [ServeDNS_missing env a ctx w r hc hm (Or.inl hz)] at hmem
        simp at hmem
        rcases hmem with rfl | rfl | rfl <;> simp [Call.isNext] at hnext
      | some entry =>
        cases entry with
        | none =>
          rw [ServeDNS_missing env a ctx w r hc hm (Or.inr hz)] at hmem
          simp at hmem
          rcases hmem with rfl | rfl | rfl <;> simp [Call.isNext] at hnext
        | some z =>
          by_cases hq : env.QType { W := w, Req := r } = dns.TypeAXFR ∨
              env.QType { W := w, Req := r } = dns.TypeIXFR
          · rw [ServeDNS_xfr env a ctx w r z hc hm hz hq] at hmem
            simp at hmem
            rcases hmem with rfl | rfl | rfl | rfl <;> simp [Call.isNext] at hnext
          · cases hs : switchOn
                (replyWith r (env.Lookup z { W := w, Req := r } (env.Name { W := w, Req := r })).1
                  (env.Lookup z { W := w, Req := r } (env.Name { W := w, Req := r })).2.1
                  (env.Lookup z { W := w, Req := r } (env.Name { W := w, Req := r })).2.2.1)
                (env.Lookup z { W := w, Req := r } (env.Name { W := w, Req := r })).2.2.2 with
            | none =>
              rw [ServeDNS_lookup_failure env a ctx w r z hc hm hz hq
                ((switchOn_eq_none_iff _ _).mp hs)] at hmem
              simp at hmem
              rcases hmem with rfl | rfl | rfl | rfl <;> simp [Call.isNext] at hnext
            | some m =>
              rw [ServeDNS_answer env a ctx w r z m hc hm hz hq hs] at hmem
              simp at hmem
              rcases hmem with rfl | rfl | rfl | rfl | rfl | rfl | rfl <;>
                simp [Call.isNext] at hnext
  · exfalso
    obtain ⟨c, hmem, _⟩ := h
    rw [ServeDNS_class env a ctx w r hc] at hmem
    simp at hmem

/-- On the answer path with a message `m` leaving the switch: `m` is the message
assembled, its size-adjusted and scrubbed form is the one message written, and
the status is RcodeSuccess with a nil error. -/
theorem ServeDNS_answer_fields (env : Env Ctx Zone RR) (a : Auto Ctx Zone RR) (ctx : Ctx)
    (w : dns.ResponseWriter RR) (r : dns.Msg RR) (z : Zone) (m : dns.Msg RR)
    (hc : env.QClass { W := w, Req := r } = dns.ClassINET)
    (hm : middleware.Zones.Matches a.Zones.Origins (env.Name { W := w, Req := r }) ≠ "")
    (hz : a.Zones.Z.lookup
        (middleware.Zones.Matches a.Zones.Names (env.Name { W := w, Req := r })) = some (some z))
    (hq : ¬ (env.QType { W := w, Req := r } = dns.TypeAXFR ∨
      env.QType { W := w, Req := r } = dns.TypeIXFR))
    (hs : switchOn
        (replyWith r (env.Lookup z { W := w, Req := r } (env.Name { W := w, Req := r })).1
          (env.Lookup z { W := w, Req := r } (env.Name { W := w, Req := r })).2.1
          (env.Lookup z { W := w, Req := r } (env.Name { W := w, Req := r })).2.2.1)
        (env.Lookup z { W := w, Req := r } (env.Name { W := w, Req := r })).2.2.2 = some m) :
    assembled (Auto.ServeDNS env a ctx w r).calls = some m ∧
    written (Auto.ServeDNS env a ctx w r).calls =
      [(env.Scrub { W := w, Req := r } (env.SizeAndDo { W := w, Req := r } m)).1] ∧
    (Auto.ServeDNS env a ctx w r).w =
      w ++ [(env.Scrub { W := w, Req := r } (env.SizeAndDo { W := w, Req := r } m)).1] ∧
    (Auto.ServeDNS env a ctx w r).rcode = dns.RcodeSuccess ∧
    (Auto.ServeDNS env a ctx w r).err = none := by
  rw [ServeDNS_answer env a ctx w r z m hc hm hz hq hs]
  simp [assembled, written, dns.ResponseWriter.WriteMsg]

/-- Once an origin matches, exactly one table entry is read in a run: the one
under the name that `Matches` selects from `Names()`. -/
theorem ServeDNS_entry_read (env : Env Ctx Zone RR) (a : Auto Ctx Zone RR) (ctx : Ctx)
    (w : dns.ResponseWriter RR) (r : dns.Msg RR)
    (hc : env.QClass { W := w, Req := r } = dns.ClassINET)
    (hm : middleware.Zones.Matches a.Zones.Origins (env.Name { W := w, Req := r }) ≠ "") :
    (Auto.ServeDNS env a ctx w r).calls.filter Call.isZ =
      [Call.Z (middleware.Zones.Matches a.Zones.Names (env.Name { W := w, Req := r }))] ∧
    ∀ c ∈ (Auto.ServeDNS env a ctx w r).calls, c.isNext = false := by
  cases hz : a.Zones.Z.lookup
      (middleware.Zones.Matches a.Zones.Names (env.Name { W := w, Req := r })) with
  | none =>
    rw [ServeDNS_missing env a ctx w r hc hm (Or.inl hz)]
    simp [List.filter, Call.isZ, Call.isNext]
  | some entry =>
    cases entry with
    | none =>
      rw [ServeDNS_missing env a ctx w r hc hm (Or.inr hz)]
      simp [List.filter, Call.isZ, Call.isNext]
    | some z =>
      by_cases hq : env.QType { W := w, Req := r } = dns.TypeAXFR ∨
          env.QType { W := w, Req := r } = dns.TypeIXFR
      · rw [ServeDNS_xfr env a ctx w r z hc hm hz hq]
        simp [List.filter, Call.isZ, Call.isNext]
      · cases hs : switchOn
            (replyWith r (env.Lookup z { W := w, Req := r } (env.Name { W := w, Req := r })).1
              (env.Lookup z { W := w, Req := r } (env.Name { W := w, Req := r })).2.1
              (env.Lookup z { W := w, Req := r } (env.Name { W := w, Req := r })).2.2.1)
            (env.Lookup z { W := w, Req := r } (env.Name { W := w, Req := r })).2.2.2 with
        | none =>
          rw [ServeDNS_lookup_failure env a ctx w r z hc hm hz hq
            ((switchOn_eq_none_iff _ _).mp hs)]
          simp [List.filter, Call.isZ, Call.isNext]
        | some m =>
          rw [ServeDNS_answer env a ctx w r z m hc hm hz hq hs]
          simp [List.filter, Call.isZ, Call.isNext]

/-- On a present zone the only lookup or transfer calls of a run are on that
zone: a transfer call for AXFR and IXFR, a lookup otherwise. -/
theorem ServeDNS_served_by (env : Env Ctx Zone RR) (a : Auto Ctx Zone RR) (ctx : Ctx)
    (w : dns.ResponseWriter RR) (r : dns.Msg RR) (z : Zone)
    (hc : env.QClass { W := w, Req := r } = dns.ClassINET)
    (hm : middleware.Zones.Matches a.Zones.Origins (env.Name { W := w, Req := r }) ≠ "")
    (hz : a.Zones.Z.lookup
        (middleware.Zones.Matches a.Zones.Names (env.Name { W := w, Req := r })) = some (some z)) :
    (Auto.ServeDNS env a ctx w r).calls.filter (fun c => c.isLookup || c.isXfr) =
      if env.QType { W := w, Req := r } = dns.TypeAXFR ∨
          env.QType { W := w, Req := r } = dns.TypeIXFR
      then [Call.Xfr z ctx r] else [Call.Lookup z (env.Name { W := w, Req := r })] := by
  by_cases hq : env.QType { W := w, Req := r } = dns.TypeAXFR ∨
      env.QType { W := w, Req := r } = dns.TypeIXFR
  · rw [ServeDNS_xfr env a ctx w r z hc hm hz hq, if_pos hq]
    simp [List.filter, Call.isLookup, Call.isXfr]
  · rw [if_neg hq]
    cases hs : switchOn
        (replyWith r (env.Lookup z { W := w, Req := r } (env.Name { W := w, Req := r })).1
          (env.Lookup z { W := w, Req := r } (env.Name { W := w, Req := r })).2.1
          (env.Lookup z { W := w, Req := r } (env.Name { W := w, Req := r })).2.2.1)
        (env.Lookup z { W := w, Req := r } (env.Name { W := w, Req := r })).2.2.2 with
    | none =>
      rw [ServeDNS_lookup_failure env a ctx w r z hc hm hz hq
        ((switchOn_eq_none_iff _ _).mp hs)]
      simp [List.filter, Call.isLookup, Call.isXfr]
    | some m =>
      rw [ServeDNS_answer env a ctx w r z m hc hm hz hq hs]
      simp [List.filter, Call.isLookup, Call.isXfr]

/-- Every run of `ServeDNS` leaves the zone table as it found it and is of one of
three kinds: a failure of its own (status RcodeServerFailure, writer untouched,
nothing written, nothing delegated); a delegation to the next handler or to the
transfer path (nothing written by `ServeDNS` itself); or an answer (status
RcodeSuccess with a nil error, one message written, nothing delegated). -/
theorem ServeDNS_run_cases (env : Env Ctx Zone RR) (a : Auto Ctx Zone RR) (ctx : Ctx)
    (w : dns.ResponseWriter RR) (r : dns.Msg RR) :
    (Auto.ServeDNS env a ctx w r).zones = a.Zones ∧
    (((Auto.ServeDNS env a ctx w r).rcode = dns.RcodeServerFailure ∧
        (Auto.ServeDNS env a ctx w r).w = w ∧
        written (Auto.ServeDNS env a ctx w r).calls = [] ∧
        ∀ c ∈ (Auto.ServeDNS env a ctx w r).calls, c.isNext = false ∧ c.isXfr = false) ∨
      (written (Auto.ServeDNS env a ctx w r).calls = [] ∧
        ∃ c ∈ (Auto.ServeDNS env a ctx w r).calls, c.isNext = true ∨ c.isXfr = true) ∨
      (∃ m, (Auto.ServeDNS env a ctx w r).rcode = dns.RcodeSuccess ∧
        (Auto.ServeDNS env a ctx w r).err = none ∧
        (Auto.ServeDNS env a ctx w r).w = w ++ [m] ∧
        written (Auto.ServeDNS env a ctx w r).calls = [m] ∧
        ∀ c ∈ (Auto.ServeDNS env a ctx w r).calls, c.isNext = false ∧ c.isXfr = false)) := by
  by_cases hc : env.QClass { W := w, Req := r } = dns.ClassINET
  · by_cases hm : middleware.Zones.Matches a.Zones.Origins (env.Name { W := w, Req := r }) = ""
    · rw [ServeDNS_forward env a ctx w r hc hm]
      refine ⟨rfl, Or.inr (Or.inl ⟨by simp [written], Call.NextOrFailure ctx r, by simp, ?_⟩)⟩
      exact Or.inl rfl
    · cases hz : a.Zones.Z.lookup
          (middleware.Zones.Matches a.Zones.Names (env.Name { W := w, Req := r })) with
      | none =>
        rw [ServeDNS_missing env a ctx w r hc hm (Or.inl hz)]
        refine ⟨rfl, Or.inl ⟨rfl, rfl, by simp [written], ?_⟩⟩
        simp [Call.isNext, Call.isXfr]
      | some entry =>
        cases entry with
        | none =>
          rw [ServeDNS_missing env a ctx w r hc hm (Or.inr hz)]
          refine ⟨rfl, Or.inl ⟨rfl, rfl, by simp [written], ?_⟩⟩
          simp [Call.isNext, Call.isXfr]
        | some z =>
          by_cases hq : env.QType { W := w, Req := r } = dns.TypeAXFR ∨
              env.QType { W := w, Req := r } = dns.TypeIXFR
          · rw [ServeDNS_xfr env a ctx w r z hc hm hz hq]
            refine ⟨rfl, Or.inr (Or.inl ⟨by simp [written], Call.Xfr z ctx r, by simp, ?_⟩)⟩
            exact Or.inr rfl
          · cases hs : switchOn
                (replyWith r (env.Lookup z { W := w, Req := r } (env.Name { W := w, Req := r })).1
                  (env.Lookup z { W := w, Req := r } (env.Name { W := w, Req := r })).2.1
                  (env.Lookup z { W := w, Req := r } (env.Name { W := w, Req := r })).2.2.1)
                (env.Lookup z { W := w, Req := r } (env.Name { W := w, Req := r })).2.2.2 with
            | none =>
              rw [ServeDNS_lookup_failure env a ctx w r z hc hm hz hq
                ((switchOn_eq_none_iff _ _).mp hs)]
              refine ⟨rfl, Or.inl ⟨rfl, rfl, by simp [written], ?_⟩⟩
              simp [Call.isNext, Call.isXfr]
            | some m =>
              rw [ServeDNS_answer env a ctx w r z m hc hm hz hq hs]
              refine ⟨rfl, Or.inr (Or.inr ⟨_, rfl, rfl, rfl, by simp [written], ?_⟩)⟩
              simp [Call.isNext, Call.isXfr]
  · rw [ServeDNS_class env a ctx w r hc]
    refine ⟨rfl, Or.inl ⟨rfl, rfl, by simp [written], ?_⟩⟩
    simp

/-- The switch leaves the three sections of the message as they are. -/
theorem switchOn_sections (m0 m : dns.Msg RR) (res : file.Result)
    (h : switchOn m0 res = some m) :
    m.Answer = m0.Answer ∧ m.Ns = m0.Ns ∧ m.Extra = m0.Extra := by
  cases res <;> simp [switchOn] at h <;> subst h <;> exact ⟨rfl, rfl, rfl⟩

/-- Once an origin matches and the name selected from `Names()` has the non-nil
entry `z`, the run is served by `z`: its only lookup or transfer call is on `z`;
for AXFR and IXFR the status and writer are those of the transfer path of `z`;
otherwise the lookup of `z` decides: on ServerFailure the status is
RcodeServerFailure with the writer untouched, on any other result the status is
RcodeSuccess and the one message written is assembled from the three record sets
the lookup of `z` returned. -/
theorem ServeDNS_zone_serves (env : Env Ctx Zone RR) (a : Auto Ctx Zone RR) (ctx : Ctx)
    (w : dns.ResponseWriter RR) (r : dns.Msg RR) (z : Zone)
    (hc : env.QClass { W := w, Req := r } = dns.ClassINET)
    (hm : middleware.Zones.Matches a.Zones.Origins (env.Name { W := w, Req := r }) ≠ "")
    (hz : a.Zones.Z.lookup
        (middleware.Zones.Matches a.Zones.Names (env.Name { W := w, Req := r })) = some (some z)) :
    (Auto.ServeDNS env a ctx w r).calls.filter (fun c => c.isLookup || c.isXfr) =
      (if env.QType { W := w, Req := r } = dns.TypeAXFR ∨
          env.QType { W := w, Req := r } = dns.TypeIXFR
      then [Call.Xfr z ctx r] else [Call.Lookup z (env.Name { W := w, Req := r })]) ∧
    ((env.QType { W := w, Req := r } = dns.TypeAXFR ∨
        env.QType { W := w, Req := r } = dns.TypeIXFR) →
      (((Auto.ServeDNS env a ctx w r).rcode, (Auto.ServeDNS env a ctx w r).err),
          (Auto.ServeDNS env a ctx w r).w) = env.XfrServeDNS z ctx w r) ∧
    (¬ (env.QType { W := w, Req := r } = dns.TypeAXFR ∨
        env.QType { W := w, Req := r } = dns.TypeIXFR) →
      (env.Lookup z { W := w, Req := r } (env.Name { W := w, Req := r })).2.2.2 =
        file.Result.ServerFailure →
      (Auto.ServeDNS env a ctx w r).rcode = dns.RcodeServerFailure ∧
      (Auto.ServeDNS env a ctx w r).err = none ∧
      (Auto.ServeDNS env a ctx w r).w = w) ∧
    (¬ (env.QType { W := w, Req := r } = dns.TypeAXFR ∨
        env.QType { W := w, Req := r } = dns.TypeIXFR) →
      (env.Lookup z { W := w, Req := r } (env.Name { W := w, Req := r })).2.2.2 ≠
        file.Result.ServerFailure →
      (Auto.ServeDNS env a ctx w r).rcode = dns.RcodeSuccess ∧
      (Auto.ServeDNS env a ctx w r).err = none ∧
      ∃ m, assembled (Auto.ServeDNS env a ctx w r).calls = some m ∧
        m.Answer = (env.Lookup z { W := w, Req := r } (env.Name { W := w, Req := r })).1 ∧
        m.Ns = (env.Lookup z { W := w, Req := r } (env.Name { W := w, Req := r })).2.1 ∧
        m.Extra = (env.Lookup z { W := w, Req := r } (env.Name { W := w, Req := r })).2.2.1 ∧
        (Auto.ServeDNS env a ctx w r).w =
          w ++ [(env.Scrub { W := w, Req := r } (env.SizeAndDo { W := w, Req := r } m)).1]) := by
  refine ⟨ServeDNS_served_by env a ctx w r z hc hm hz, ?_, ?_, ?_⟩
  · intro hq
    rw [ServeDNS_xfr env a ctx w r z hc hm hz hq]
  · intro hq hr
    rw [ServeDNS_lookup_failure env a ctx w r z hc hm hz hq hr]
    exact ⟨rfl, rfl, rfl⟩
  · intro hq hr
    cases hs : switchOn
        (replyWith r (env.Lookup z { W := w, Req := r } (env.Name { W := w, Req := r })).1
          (env.Lookup z { W := w, Req := r } (env.Name { W := w, Req := r })).2.1
          (env.Lookup z { W := w, Req := r } (env.Name { W := w, Req := r })).2.2.1)
        (env.Lookup z { W := w, Req := r } (env.Name { W := w, Req := r })).2.2.2 with
    | none => exact absurd ((switchOn_eq_none_iff _ _).mp hs) hr
    | some m =>
      obtain ⟨h1, _, h3, h4, h5⟩ := ServeDNS_answer_fields env a ctx w r z m hc hm hz hq hs
      obtain ⟨s1, s2, s3⟩ := switchOn_sections _ _ _ hs
      exact ⟨h4, h5, m, h1, s1, s2, s3, h3⟩

end contract

end auto

/-! ## Claims about the dispatcher -/

namespace auto

section claims

variable {Ctx Zone RR : Type}

/-- C1: for a query whose class is not ClassINET, `ServeDNS` returns
RcodeServerFailure with a non-nil error, leaves the writer untouched (no message
written), and interacts with nothing: no hand-over to the next handler, no
transfer call, no zone lookup, no read of the table, whatever the origin list
and the zone table hold. -/
theorem ServeDNS_other_class (env : Env Ctx Zone RR) (a : Auto Ctx Zone RR) (ctx : Ctx)
    (w : dns.ResponseWriter RR) (r : dns.Msg RR)
    (hc : env.QClass { W := w, Req := r } ≠ dns.ClassINET) :
    (Auto.ServeDNS env a ctx w r).rcode = dns.RcodeServerFailure ∧
    (Auto.ServeDNS env a ctx w r).err ≠ none ∧
    (Auto.ServeDNS env a ctx w r).w = w ∧
    written (Auto.ServeDNS env a ctx w r).calls = [] ∧
    (Auto.ServeDNS env a ctx w r).calls = [] ∧
    (∀ c ∈ (Auto.ServeDNS env a ctx w r).calls,
      c.isNext = false ∧ c.isXfr = false ∧ c.isLookup = false ∧ c.isZ = false) := by
  rw [ServeDNS_class env a ctx w r hc]
  simp [written]

/-- C1 at a CHAOS-class query for `x.a.example.` against the two-zone table. -/
theorem ServeDNS_other_class_witness :
    (sampleEnv ([], [], [], file.Result.Success)).QClass
        { W := [], Req := sampleQuery "x.a.example." 1 3 } ≠ dns.ClassINET ∧
    (Auto.ServeDNS (sampleEnv ([], [], [], file.Result.Success)) overlapAuto ()
        [] (sampleQuery "x.a.example." 1 3)).rcode = dns.RcodeServerFailure :=
  ⟨by decide,
   (ServeDNS_other_class (sampleEnv ([], [], [], file.Result.Success)) overlapAuto ()
      [] (sampleQuery "x.a.example." 1 3) (by decide)).1⟩

/-- C2: for a ClassINET query whose name matches no configured origin, the status
and the writer after `ServeDNS` are exactly those of `NextOrFailure` on the same
context, writer and unchanged request; the run consists of the origin read and
that one hand-over, so `ServeDNS` writes nothing itself and reads no table entry.
The hand-over marks this case only: in any run (in particular in every run that
ends in a server failure of `ServeDNS` itself or in an NXDOMAIN answer) a
hand-over event occurs only if the class is INET and no origin matches. -/
theorem ServeDNS_no_origin (env : Env Ctx Zone RR) (a : Auto Ctx Zone RR) (ctx : Ctx)
    (w : dns.ResponseWriter RR) (r : dns.Msg RR)
    (hc : env.QClass { W := w, Req := r } = dns.ClassINET)
    (hm : middleware.Zones.Matches a.Zones.Origins (env.Name { W := w, Req := r }) = "") :
    (((Auto.ServeDNS env a ctx w r).rcode, (Auto.ServeDNS env a ctx w r).err),
        (Auto.ServeDNS env a ctx w r).w) = env.NextOrFailure Auto.Name a.Next ctx w r ∧
    (Auto.ServeDNS env a ctx w r).calls = [Call.Origins, Call.NextOrFailure ctx r] ∧
    written (Auto.ServeDNS env a ctx w r).calls = [] ∧
    assembled (Auto.ServeDNS env a ctx w r).calls = none ∧
    (∀ c ∈ (Auto.ServeDNS env a ctx w r).calls,
      c.isZ = false ∧ c.isXfr = false ∧ c.isLookup = false) ∧
    (∃ c ∈ (Auto.ServeDNS env a ctx w r).calls, c.isNext = true) ∧
    (∀ (a2 : Auto Ctx Zone RR) (ctx2 : Ctx) (w2 : dns.ResponseWriter RR) (r2 : dns.Msg RR),
      (∃ c ∈ (Auto.ServeDNS env a2 ctx2 w2 r2).calls, c.isNext = true) →
      env.QClass { W := w2, Req := r2 } = dns.ClassINET ∧
        middleware.Zones.Matches a2.Zones.Origins (env.Name { W := w2, Req := r2 }) = "") := by
  rw [ServeDNS_forward env a ctx w r hc hm]
  refine ⟨rfl, rfl, by simp [written], by simp [assembled], ?_, ?_, ?_⟩
  · intro c hmem
    simp at hmem
    rcases hmem with rfl | rfl <;> simp [Call.isZ, Call.isXfr, Call.isLookup]
  · exact ⟨Call.NextOrFailure ctx r, by simp, rfl⟩
  · intro a2 ctx2 w2 r2 h
    exact ServeDNS_next_only_unmatched env a2 ctx2 w2 r2 h

/-- C2 at an INET query for `x.a.org.` against the two-zone table, whose only
origin is `example.`. -/
theorem ServeDNS_no_origin_witness :
    (sampleEnv ([], [], [], file.Result.Success)).QClass
        { W := [], Req := sampleQuery "x.a.org." 1 1 } = dns.ClassINET ∧
    middleware.Zones.Matches overlapAuto.Zones.Origins
        ((sampleEnv ([], [], [], file.Result.Success)).Name
          { W := [], Req := sampleQuery "x.a.org." 1 1 }) = "" ∧
    (Auto.ServeDNS (sampleEnv ([], [], [], file.Result.Success)) overlapAuto ()
        [] (sampleQuery "x.a.org." 1 1)).calls =
      [Call.Origins, Call.NextOrFailure () (sampleQuery "x.a.org." 1 1)] :=
  ⟨by decide, by decide,
   (ServeDNS_no_origin (sampleEnv ([], [], [], file.Result.Success)) overlapAuto ()
      [] (sampleQuery "x.a.org." 1 1) (by decide) (by decide)).2.1⟩

/-- C3: for a ClassINET query whose name matches a configured origin, when the
name selected by the longest match over `Names()` has no entry in the table, or
has a nil entry, `ServeDNS` returns RcodeServerFailure with a nil error and leaves
the writer untouched; the run stops after the entry read.  Nothing is assumed
about the query type, so this holds for AXFR and IXFR as well. -/
theorem ServeDNS_zone_missing (env : Env Ctx Zone RR) (a : Auto Ctx Zone RR) (ctx : Ctx)
    (w : dns.ResponseWriter RR) (r : dns.Msg RR)
    (hc : env.QClass { W := w, Req := r } = dns.ClassINET)
    (hm : middleware.Zones.Matches a.Zones.Origins (env.Name { W := w, Req := r }) ≠ "")
    (hz : a.Zones.Z.lookup
        (middleware.Zones.Matches a.Zones.Names (env.Name { W := w, Req := r })) = none ∨
      a.Zones.Z.lookup
        (middleware.Zones.Matches a.Zones.Names (env.Name { W := w, Req := r })) = some none) :
    (Auto.ServeDNS env a ctx w r).rcode = dns.RcodeServerFailure ∧
    (Auto.ServeDNS env a ctx w r).err = none ∧
    (Auto.ServeDNS env a ctx w r).w = w ∧
    written (Auto.ServeDNS env a ctx w r).calls = [] ∧
    (Auto.ServeDNS env a ctx w r).calls =
      [Call.Origins, Call.Names,
        Call.Z (middleware.Zones.Matches a.Zones.Names (env.Name { W := w, Req := r }))] := by
  rw [ServeDNS_missing env a ctx w r hc hm hz]
  simp [written]

/-- C3 at an AXFR query for `x.a.example.` when the origin `example.` is
configured and the table is empty. -/
theorem ServeDNS_zone_missing_witness :
    (sampleEnv ([], [], [], file.Result.Success)).QType
        { W := [], Req := sampleQuery "x.a.example." 252 1 } = dns.TypeAXFR ∧
    (Auto.ServeDNS (sampleEnv ([], [], [], file.Result.Success)) emptyAuto ()
        [] (sampleQuery "x.a.example." 252 1)).rcode = dns.RcodeServerFailure ∧
    (Auto.ServeDNS (sampleEnv ([], [], [], file.Result.Success)) emptyAuto ()
        [] (sampleQuery "x.a.example." 252 1)).err = none :=
  ⟨by decide,
   (ServeDNS_zone_missing (sampleEnv ([], [], [], file.Result.Success)) emptyAuto ()
      [] (sampleQuery "x.a.example." 252 1) (by decide) (by decide) (Or.inl (by decide))).1,
   (ServeDNS_zone_missing (sampleEnv ([], [], [], file.Result.Success)) emptyAuto ()
      [] (sampleQuery "x.a.example." 252 1) (by decide) (by decide) (Or.inl (by decide))).2.1⟩

/-- C4: for a ClassINET query that matches an origin and selects a present,
non-nil zone `z`: if the query type is AXFR or IXFR, the status and the writer
after `ServeDNS` are exactly those of the transfer path for `z`, the run ends with
that transfer call, no lookup is made and no answer message is assembled or
written by `ServeDNS`; for every other query type no transfer call is made, and
the zone's lookup is. -/
theorem ServeDNS_transfer (env : Env Ctx Zone RR) (a : Auto Ctx Zone RR) (ctx : Ctx)
    (w : dns.ResponseWriter RR) (r : dns.Msg RR) (z : Zone)
    (hc : env.QClass { W := w, Req := r } = dns.ClassINET)
    (hm : middleware.Zones.Matches a.Zones.Origins (env.Name { W := w, Req := r }) ≠ "")
    (hz : a.Zones.Z.lookup
        (middleware.Zones.Matches a.Zones.Names (env.Name { W := w, Req := r })) = some (some z)) :
    ((env.QType { W := w, Req := r } = dns.TypeAXFR ∨
        env.QType { W := w, Req := r } = dns.TypeIXFR) →
      (((Auto.ServeDNS env a ctx w r).rcode, (Auto.ServeDNS env a ctx w r).err),
          (Auto.ServeDNS env a ctx w r).w) = env.XfrServeDNS z ctx w r ∧
      (Auto.ServeDNS env a ctx w r).calls =
        [Call.Origins, Call.Names,
          Call.Z (middleware.Zones.Matches a.Zones.Names (env.Name { W := w, Req := r })),
          Call.Xfr z ctx r] ∧
      (∀ c ∈ (Auto.ServeDNS env a ctx w r).calls, c.isLookup = false) ∧
      assembled (Auto.ServeDNS env a ctx w r).calls = none ∧
      written (Auto.ServeDNS env a ctx w r).calls = []) ∧
    (¬ (env.QType { W := w, Req := r } = dns.TypeAXFR ∨
        env.QType { W := w, Req := r } = dns.TypeIXFR) →
      (∀ c ∈ (Auto.ServeDNS env a ctx w r).calls, c.isXfr = false) ∧
      Call.Lookup z (env.Name { W := w, Req := r }) ∈ (Auto.ServeDNS env a ctx w r).calls) := by
  constructor
  · intro hq
    rw [ServeDNS_xfr env a ctx w r z hc hm hz hq]
    refine ⟨rfl, rfl, ?_, by simp [assembled], by simp [written]⟩
    intro c hmem
    simp at hmem
    rcases hmem with rfl | rfl | rfl | rfl <;> simp [Call.isLookup]
  · intro hq
    cases hs : switchOn
        (replyWith r (env.Lookup z { W := w, Req := r } (env.Name { W := w, Req := r })).1
          (env.Lookup z { W := w, Req := r } (env.Name { W := w, Req := r })).2.1
          (env.Lookup z { W := w, Req := r } (env.Name { W := w, Req := r })).2.2.1)
        (env.Lookup z { W := w, Req := r } (env.Name { W := w, Req := r })).2.2.2 with
    | none =>
      rw [ServeDNS_lookup_failure env a ctx w r z hc hm hz hq
        ((switchOn_eq_none_iff _ _).mp hs)]
      refine ⟨?_, by simp⟩
      intro c hmem
      simp at hmem
      rcases hmem with rfl | rfl | rfl | rfl <;> simp [Call.isXfr]
    | some m =>
      rw [ServeDNS_answer env a ctx w r z m hc hm hz hq hs]
      refine ⟨?_, by simp⟩
      intro c hmem
      simp at hmem
      rcases hmem with rfl | rfl | rfl | rfl | rfl | rfl | rfl <;> simp [Call.isXfr]

/-- C4 at an AXFR query for `x.a.example.` against the two-zone table. -/
theorem ServeDNS_transfer_witness :
    (sampleEnv ([], [], [], file.Result.Success)).QType
        { W := [], Req := sampleQuery "x.a.example." 252 1 } = dns.TypeAXFR ∧
    (Auto.ServeDNS (sampleEnv ([], [], [], file.Result.Success)) overlapAuto ()
        [] (sampleQuery "x.a.example." 252 1)).calls =
      [Call.Origins, Call.Names, Call.Z "a.example.",
        Call.Xfr "zone a.example." () (sampleQuery "x.a.example." 252 1)] :=
  ⟨by decide,
   ((ServeDNS_transfer (sampleEnv ([], [], [], file.Result.Success)) overlapAuto ()
      [] (sampleQuery "x.a.example." 252 1) "zone a.example."
      (by decide) (by decide) (by decide)).1 (Or.inl (by decide))).2.1⟩

/-- C7: on the normal answer path, when the lookup returns the result
ServerFailure, `ServeDNS` returns RcodeServerFailure with a nil error, leaves the
writer untouched and assembles no message; the run stops after the lookup.
Nothing is assumed about the three record sets the lookup returned. -/
theorem ServeDNS_lookup_server_failure (env : Env Ctx Zone RR) (a : Auto Ctx Zone RR) (ctx : Ctx)
    (w : dns.ResponseWriter RR) (r : dns.Msg RR) (z : Zone)
    (hc : env.QClass { W := w, Req := r } = dns.ClassINET)
    (hm : middleware.Zones.Matches a.Zones.Origins (env.Name { W := w, Req := r }) ≠ "")
    (hz : a.Zones.Z.lookup
        (middleware.Zones.Matches a.Zones.Names (env.Name { W := w, Req := r })) = some (some z))
    (hq : ¬ (env.QType { W := w, Req := r } = dns.TypeAXFR ∨
      env.QType { W := w, Req := r } = dns.TypeIXFR))
    (hr : (env.Lookup z { W := w, Req := r } (env.Name { W := w, Req := r })).2.2.2 =
      file.Result.ServerFailure) :
    (Auto.ServeDNS env a ctx w r).rcode = dns.RcodeServerFailure ∧
    (Auto.ServeDNS env a ctx w r).err = none ∧
    (Auto.ServeDNS env a ctx w r).w = w ∧
    written (Auto.ServeDNS env a ctx w r).calls = [] ∧
    assembled (Auto.ServeDNS env a ctx w r).calls = none ∧
    (Auto.ServeDNS env a ctx w r).calls =
      [Call.Origins, Call.Names,
        Call.Z (middleware.Zones.Matches a.Zones.Names (env.Name { W := w, Req := r })),
        Call.Lookup z (env.Name { W := w, Req := r })] := by
  rw [ServeDNS_lookup_failure env a ctx w r z hc hm hz hq hr]
  simp [written, assembled]

/-- C7 at the query `www.example.` against the one-zone table, with a lookup
that reports ServerFailure next to non-empty record sets. -/
theorem ServeDNS_lookup_server_failure_witness :
    ((sampleEnv (["a"], ["ns"], ["glue"], file.Result.ServerFailure)).Lookup "zone example."
        { W := [], Req := sampleQuery "www.example." 1 1 } "www.example.").2.2.2 =
      file.Result.ServerFailure ∧
    (Auto.ServeDNS (sampleEnv (["a"], ["ns"], ["glue"], file.Result.ServerFailure))
        sampleAuto () [] (sampleQuery "www.example." 1 1)).rcode = dns.RcodeServerFailure ∧
    (Auto.ServeDNS (sampleEnv (["a"], ["ns"], ["glue"], file.Result.ServerFailure))
        sampleAuto () [] (sampleQuery "www.example." 1 1)).w = [] :=
  ⟨by decide,
   (ServeDNS_lookup_server_failure
      (sampleEnv (["a"], ["ns"], ["glue"], file.Result.ServerFailure))
      sampleAuto () [] (sampleQuery "www.example." 1 1) "zone example."
      (by decide) (by decide) (by decide) (by decide) (by decide)).1,
   (ServeDNS_lookup_server_failure
      (sampleEnv (["a"], ["ns"], ["glue"], file.Result.ServerFailure))
      sampleAuto () [] (sampleQuery "www.example." 1 1) "zone example."
      (by decide) (by decide) (by decide) (by decide) (by decide)).2.2.1⟩

/-- C9: zone selection is longest-suffix match, and the zone selected is the zone
that serves.  Once an origin matches, the one table entry `ServeDNS` reads is that
of `Matches` over `Names()`; that name is empty exactly when no listed name covers
the query name, and otherwise it is a listed name that covers the query name (the
query name is equal to it or a subdomain of it), matches it with all of its
labels, and has at least as many matching trailing labels as every listed
covering name.  The zone used is the entry of that name: when the entry is a
non-nil zone `z`, the only lookup or transfer call of the run is on `z`, a
transfer query returns the outcome of the transfer path of `z`, and any other
query is answered from the lookup of `z` (RcodeSuccess and one message holding
the three record sets of that lookup, or RcodeServerFailure when that lookup
reports ServerFailure); when the entry is absent or nil no zone is called and the
status is RcodeServerFailure.  In particular, when the listed names are
`a.example.` and `example.` in either order, a query for `x.a.example.` selects
`a.example.`, reads its entry and is served by the zone stored there. -/
theorem ServeDNS_longest_suffix (env : Env Ctx Zone RR) (a : Auto Ctx Zone RR) (ctx : Ctx)
    (w : dns.ResponseWriter RR) (r : dns.Msg RR)
    (hc : env.QClass { W := w, Req := r } = dns.ClassINET)
    (hm : middleware.Zones.Matches a.Zones.Origins (env.Name { W := w, Req := r }) ≠ "") :
    (Auto.ServeDNS env a ctx w r).calls.filter Call.isZ =
      [Call.Z (middleware.Zones.Matches a.Zones.Names (env.Name { W := w, Req := r }))] ∧
    (middleware.Zones.Matches a.Zones.Names (env.Name { W := w, Req := r }) = "" ↔
      ∀ k ∈ a.Zones.Names, middleware.Zones.covers k (env.Name { W := w, Req := r }) = false) ∧
    ((∃ k ∈ a.Zones.Names, middleware.Zones.covers k (env.Name { W := w, Req := r }) = true) →
      middleware.Zones.Matches a.Zones.Names (env.Name { W := w, Req := r }) ∈ a.Zones.Names ∧
      dns.IsSubDomain (middleware.Zones.Matches a.Zones.Names (env.Name { W := w, Req := r }))
        (env.Name { W := w, Req := r }) = true ∧
      dns.CompareDomainName
          (middleware.Zones.Matches a.Zones.Names (env.Name { W := w, Req := r }))
          (env.Name { W := w, Req := r }) =
        dns.CountLabel (middleware.Zones.Matches a.Zones.Names (env.Name { W := w, Req := r })) ∧
      ∀ k ∈ a.Zones.Names, middleware.Zones.covers k (env.Name { W := w, Req := r }) = true →
        dns.CompareDomainName k (env.Name { W := w, Req := r }) ≤
          dns.CompareDomainName
            (middleware.Zones.Matches a.Zones.Names (env.Name { W := w, Req := r }))
            (env.Name { W := w, Req := r })) ∧
    (∀ z, a.Zones.Z.lookup
        (middleware.Zones.Matches a.Zones.Names (env.Name { W := w, Req := r })) = some (some z) →
      (Auto.ServeDNS env a ctx w r).calls.filter (fun c => c.isLookup || c.isXfr) =
        (if env.QType { W := w, Req := r } = dns.TypeAXFR ∨
            env.QType { W := w, Req := r } = dns.TypeIXFR
        then [Call.Xfr z ctx r] else [Call.Lookup z (env.Name { W := w, Req := r })]) ∧
      ((env.QType { W := w, Req := r } = dns.TypeAXFR ∨
          env.QType { W := w, Req := r } = dns.TypeIXFR) →
        (((Auto.ServeDNS env a ctx w r).rcode, (Auto.ServeDNS env a ctx w r).err),
            (Auto.ServeDNS env a ctx w r).w) = env.XfrServeDNS z ctx w r) ∧
      (¬ (env.QType { W := w, Req := r } = dns.TypeAXFR ∨
          env.QType { W := w, Req := r } = dns.TypeIXFR) →
        (env.Lookup z { W := w, Req := r } (env.Name { W := w, Req := r })).2.2.2 =
          file.Result.ServerFailure →
        (Auto.ServeDNS env a ctx w r).rcode = dns.RcodeServerFailure ∧
        (Auto.ServeDNS env a ctx w r).err = none ∧
        (Auto.ServeDNS env a ctx w r).w = w) ∧
      (¬ (env.QType { W := w, Req := r } = dns.TypeAXFR ∨
          env.QType { W := w, Req := r } = dns.TypeIXFR) →
        (env.Lookup z { W := w, Req := r } (env.Name { W := w, Req := r })).2.2.2 ≠
          file.Result.ServerFailure →
        (Auto.ServeDNS env a ctx w r).rcode = dns.RcodeSuccess ∧
        (Auto.ServeDNS env a ctx w r).err = none ∧
        ∃ m, assembled (Auto.ServeDNS env a ctx w r).calls = some m ∧
          m.Answer = (env.Lookup z { W := w, Req := r } (env.Name { W := w, Req := r })).1 ∧
          m.Ns = (env.Lookup z { W := w, Req := r } (env.Name { W := w, Req := r })).2.1 ∧
          m.Extra = (env.Lookup z { W := w, Req := r } (env.Name { W := w, Req := r })).2.2.1 ∧
          (Auto.ServeDNS env a ctx w r).w =
            w ++ [(env.Scrub { W := w, Req := r } (env.SizeAndDo { W := w, Req := r } m)).1])) ∧
    ((a.Zones.Z.lookup
          (middleware.Zones.Matches a.Zones.Names (env.Name { W := w, Req := r })) = none ∨
        a.Zones.Z.lookup
          (middleware.Zones.Matches a.Zones.Names (env.Name { W := w, Req := r })) = some none) →
      (Auto.ServeDNS env a ctx w r).calls.filter (fun c => c.isLookup || c.isXfr) = [] ∧
      (Auto.ServeDNS env a ctx w r).rcode = dns.RcodeServerFailure ∧
      (Auto.ServeDNS env a ctx w r).err = none ∧
      (Auto.ServeDNS env a ctx w r).w = w) ∧
    (env.Name { W := w, Req := r } = "x.a.example." →
      List.Perm a.Zones.Names ["a.example.", "example."] →
      middleware.Zones.Matches a.Zones.Names (env.Name { W := w, Req := r }) = "a.example." ∧
      (Auto.ServeDNS env a ctx w r).calls.filter Call.isZ = [Call.Z "a.example."] ∧
      ∀ z, a.Zones.Z.lookup "a.example." = some (some z) →
        (Auto.ServeDNS env a ctx w r).calls.filter (fun c => c.isLookup || c.isXfr) =
          (if env.QType { W := w, Req := r } = dns.TypeAXFR ∨
              env.QType { W := w, Req := r } = dns.TypeIXFR
          then [Call.Xfr z ctx r] else [Call.Lookup z "x.a.example."]) ∧
        ((env.QType { W := w, Req := r } = dns.TypeAXFR ∨
            env.QType { W := w, Req := r } = dns.TypeIXFR) →
          (((Auto.ServeDNS env a ctx w r).rcode, (Auto.ServeDNS env a ctx w r).err),
              (Auto.ServeDNS env a ctx w r).w) = env.XfrServeDNS z ctx w r) ∧
        (¬ (env.QType { W := w, Req := r } = dns.TypeAXFR ∨
            env.QType { W := w, Req := r } = dns.TypeIXFR) →
          (env.Lookup z { W := w, Req := r } "x.a.example.").2.2.2 ≠
            file.Result.ServerFailure →
          (Auto.ServeDNS env a ctx w r).rcode = dns.RcodeSuccess ∧
          (Auto.ServeDNS env a ctx w r).err = none ∧
          ∃ m, assembled (Auto.ServeDNS env a ctx w r).calls = some m ∧
            m.Answer = (env.Lookup z { W := w, Req := r } "x.a.example.").1 ∧
            m.Ns = (env.Lookup z { W := w, Req := r } "x.a.example.").2.1 ∧
            m.Extra = (env.Lookup z { W := w, Req := r } "x.a.example.").2.2.1 ∧
            (Auto.ServeDNS env a ctx w r).w =
              w ++ [(env.Scrub { W := w, Req := r } (env.SizeAndDo { W := w, Req := r } m)).1])) := by
  obtain ⟨he1, _⟩ := ServeDNS_entry_read env a ctx w r hc hm
  refine ⟨he1, middleware.Zones.Matches_eq_empty_iff _ _, ?_, ?_, ?_, ?_⟩
  · intro hex
    obtain ⟨h1, h2, h3⟩ :=
      middleware.Zones.Matches_longest a.Zones.Names (env.Name { W := w, Req := r }) hex
    refine ⟨h1, ?_, middleware.Zones.covers_compare h2, h3⟩
    simp only [middleware.Zones.covers, Bool.and_eq_true] at h2
    exact h2.2
  · intro z hz
    exact ServeDNS_zone_serves env a ctx w r z hc hm hz
  · intro hz
    rw [ServeDNS_missing env a ctx w r hc hm hz]
    simp [List.filter, Call.isLookup, Call.isXfr]
  · intro hname hperm
    have hsel : middleware.Zones.Matches a.Zones.Names (env.Name { W := w, Req := r }) =
        "a.example." := by
      rw [hname]
      apply middleware.Zones.Matches_eq_of_strict
      · exact hperm.mem_iff.mpr (by simp)
      · decide
      · intro k hk _ hne
        have hk2 : k ∈ ["a.example.", "example."] := hperm.mem_iff.mp hk
        simp only [List.mem_cons, List.mem_singleton, List.not_mem_nil, or_false] at hk2
        rcases hk2 with rfl | rfl
        · exact absurd rfl hne
        · decide
    refine ⟨hsel, by rw [he1, hsel], ?_⟩
    intro z hz
    obtain ⟨s1, s2, _, s4⟩ :=
      ServeDNS_zone_serves env a ctx w r z hc hm (by rw [hsel]; exact hz)
    rw [hname] at s1 s4
    exact ⟨s1, s2, s4⟩

/-- C9 at the query `x.a.example.` (type A) against the two-zone table, whose
names are listed as `example.` first and `a.example.` second, with a lookup that
answers with the name of the zone asked: the entry read is that of `a.example.`,
the one lookup is on the zone stored there, and the message written carries that
zone's answer. -/
theorem ServeDNS_longest_suffix_witness :
    zoneEnv.QClass { W := [], Req := sampleQuery "x.a.example." 1 1 } = dns.ClassINET ∧
    middleware.Zones.Matches overlapAuto.Zones.Origins
        (zoneEnv.Name { W := [], Req := sampleQuery "x.a.example." 1 1 }) ≠ "" ∧
    List.Perm overlapAuto.Zones.Names ["a.example.", "example."] ∧
    overlapAuto.Zones.Z.lookup "a.example." = some (some "zone a.example.") ∧
    (Auto.ServeDNS zoneEnv overlapAuto () [] (sampleQuery "x.a.example." 1 1)).calls.filter
        Call.isZ = [Call.Z "a.example."] ∧
    (Auto.ServeDNS zoneEnv overlapAuto () [] (sampleQuery "x.a.example." 1 1)).calls.filter
        (fun c => c.isLookup || c.isXfr) = [Call.Lookup "zone a.example." "x.a.example."] ∧
    (Auto.ServeDNS zoneEnv overlapAuto () [] (sampleQuery "x.a.example." 1 1)).rcode =
      dns.RcodeSuccess ∧
    ∃ m, assembled (Auto.ServeDNS zoneEnv overlapAuto () []
        (sampleQuery "x.a.example." 1 1)).calls = some m ∧
      m.Answer = ["zone a.example."] ∧
      (Auto.ServeDNS zoneEnv overlapAuto () [] (sampleQuery "x.a.example." 1 1)).w = [] ++ [m] :=
  match (ServeDNS_longest_suffix zoneEnv overlapAuto () [] (sampleQuery "x.a.example." 1 1)
      (by decide) (by decide)).2.2.2.2.2 rfl (List.Perm.swap _ _ _) with
  | ⟨_, hentry, hserve⟩ =>
    match hserve "zone a.example." (by decide) with
    | ⟨hcalls, _, hans⟩ =>
      match hans (by decide) (by decide) with
      | ⟨hrc, _, m, hm1, hm2, _, _, hw⟩ =>
        ⟨by decide, by decide, List.Perm.swap _ _ _, by decide, hentry, hcalls, hrc,
          m, hm1, hm2, hw⟩

/-- C10: on the normal answer path with a lookup result other than
ServerFailure, the message assembled is size-adjusted, then scrubbed, then
written: the run ends with these three events in this order, the scrubbed message
is the only message `ServeDNS` writes and the writer holds it as its one new
message, and the status is RcodeSuccess with a nil error. -/
theorem ServeDNS_delivers (env : Env Ctx Zone RR) (a : Auto Ctx Zone RR) (ctx : Ctx)
    (w : dns.ResponseWriter RR) (r : dns.Msg RR) (z : Zone)
    (hc : env.QClass { W := w, Req := r } = dns.ClassINET)
    (hm : middleware.Zones.Matches a.Zones.Origins (env.Name { W := w, Req := r }) ≠ "")
    (hz : a.Zones.Z.lookup
        (middleware.Zones.Matches a.Zones.Names (env.Name { W := w, Req := r })) = some (some z))
    (hq : ¬ (env.QType { W := w, Req := r } = dns.TypeAXFR ∨
      env.QType { W := w, Req := r } = dns.TypeIXFR))
    (hr : (env.Lookup z { W := w, Req := r } (env.Name { W := w, Req := r })).2.2.2 ≠
      file.Result.ServerFailure) :
    ∃ m, assembled (Auto.ServeDNS env a ctx w r).calls = some m ∧
      (∃ before, (Auto.ServeDNS env a ctx w r).calls = before ++
        [Call.SizeAndDo m,
         Call.Scrub (env.SizeAndDo { W := w, Req := r } m),
         Call.WriteMsg (env.Scrub { W := w, Req := r } (env.SizeAndDo { W := w, Req := r } m)).1] ∧
        written before = []) ∧
      written (Auto.ServeDNS env a ctx w r).calls =
        [(env.Scrub { W := w, Req := r } (env.SizeAndDo { W := w, Req := r } m)).1] ∧
      (Auto.ServeDNS env a ctx w r).w =
        w ++ [(env.Scrub { W := w, Req := r } (env.SizeAndDo { W := w, Req := r } m)).1] ∧
      (Auto.ServeDNS env a ctx w r).rcode = dns.RcodeSuccess ∧
      (Auto.ServeDNS env a ctx w r).err = none := by
  cases hs : switchOn
      (replyWith r (env.Lookup z { W := w, Req := r } (env.Name { W := w, Req := r })).1
        (env.Lookup z { W := w, Req := r } (env.Name { W := w, Req := r })).2.1
        (env.Lookup z { W := w, Req := r } (env.Name { W := w, Req := r })).2.2.1)
      (env.Lookup z { W := w, Req := r } (env.Name { W := w, Req := r })).2.2.2 with
  | none => exact absurd ((switchOn_eq_none_iff _ _).mp hs) hr
  | some m =>
    obtain ⟨h1, h2, h3, h4, h5⟩ := ServeDNS_answer_fields env a ctx w r z m hc hm hz hq hs
    refine ⟨m, h1, ?_, h2, h3, h4, h5⟩
    rw [ServeDNS_answer env a ctx w r z m hc hm hz hq hs]
    exact ⟨[Call.Origins, Call.Names,
      Call.Z (middleware.Zones.Matches a.Zones.Names (env.Name { W := w, Req := r })),
      Call.Lookup z (env.Name { W := w, Req := r })], rfl, rfl⟩

/-- C10 at the query `www.example.` against the one-zone table with a successful
lookup: one message is written and the status is RcodeSuccess. -/
theorem ServeDNS_delivers_witness :
    ((sampleEnv (["a"], ["ns"], ["glue"], file.Result.Success)).Lookup "zone example."
        { W := [], Req := sampleQuery "www.example." 1 1 } "www.example.").2.2.2 ≠
      file.Result.ServerFailure ∧
    ∃ m, (Auto.ServeDNS (sampleEnv (["a"], ["ns"], ["glue"], file.Result.Success))
        sampleAuto () [] (sampleQuery "www.example." 1 1)).w = [] ++ [m] ∧
      (Auto.ServeDNS (sampleEnv (["a"], ["ns"], ["glue"], file.Result.Success))
        sampleAuto () [] (sampleQuery "www.example." 1 1)).rcode = dns.RcodeSuccess :=
  ⟨by decide,
   match ServeDNS_delivers (sampleEnv (["a"], ["ns"], ["glue"], file.Result.Success))
      sampleAuto () [] (sampleQuery "www.example." 1 1) "zone example."
      (by decide) (by decide) (by decide) (by decide) (by decide) with
   | ⟨_, _, _, _, hw, hrc, _⟩ => ⟨_, hw, hrc⟩⟩

/-- C11: whenever `ServeDNS` writes a message itself it returns RcodeSuccess with
a nil error, whatever rcode the message carries; in particular the answer
assembled for a lookup result NameError carries NXDOMAIN and the status is still
RcodeSuccess.  Each RcodeServerFailure of its own (other class, missing or nil
zone entry, lookup result ServerFailure) comes with nothing written and the
writer untouched.  So in a run with no hand-over to the next handler and no
transfer call, the status is RcodeSuccess or RcodeServerFailure, the writer gains
exactly the messages `ServeDNS` wrote, and a message is written if and only if
the status is RcodeSuccess. -/
theorem ServeDNS_write_iff_success (env : Env Ctx Zone RR) (a : Auto Ctx Zone RR) (ctx : Ctx)
    (w : dns.ResponseWriter RR) (r : dns.Msg RR) :
    (written (Auto.ServeDNS env a ctx w r).calls ≠ [] →
      (Auto.ServeDNS env a ctx w r).rcode = dns.RcodeSuccess ∧
      (Auto.ServeDNS env a ctx w r).err = none) ∧
    (∀ z, env.QClass { W := w, Req := r } = dns.ClassINET →
      middleware.Zones.Matches a.Zones.Origins (env.Name { W := w, Req := r }) ≠ "" →
      a.Zones.Z.lookup
        (middleware.Zones.Matches a.Zones.Names (env.Name { W := w, Req := r })) = some (some z) →
      ¬ (env.QType { W := w, Req := r } = dns.TypeAXFR ∨
        env.QType { W := w, Req := r } = dns.TypeIXFR) →
      (env.Lookup z { W := w, Req := r } (env.Name { W := w, Req := r })).2.2.2 =
        file.Result.NameError →
      (∃ m, assembled (Auto.ServeDNS env a ctx w r).calls = some m ∧
        m.Rcode = dns.RcodeNameError ∧
        written (Auto.ServeDNS env a ctx w r).calls =
          [(env.Scrub { W := w, Req := r } (env.SizeAndDo { W := w, Req := r } m)).1]) ∧
      (Auto.ServeDNS env a ctx w r).rcode = dns.RcodeSuccess ∧
      (Auto.ServeDNS env a ctx w r).err = none) ∧
    (env.QClass { W := w, Req := r } ≠ dns.ClassINET →
      (Auto.ServeDNS env a ctx w r).rcode = dns.RcodeServerFailure ∧
      written (Auto.ServeDNS env a ctx w r).calls = [] ∧
      (Auto.ServeDNS env a ctx w r).w = w) ∧
    (env.QClass { W := w, Req := r } = dns.ClassINET →
      middleware.Zones.Matches a.Zones.Origins (env.Name { W := w, Req := r }) ≠ "" →
      (a.Zones.Z.lookup
          (middleware.Zones.Matches a.Zones.Names (env.Name { W := w, Req := r })) = none ∨
        a.Zones.Z.lookup
          (middleware.Zones.Matches a.Zones.Names (env.Name { W := w, Req := r })) = some none) →
      (Auto.ServeDNS env a ctx w r).rcode = dns.RcodeServerFailure ∧
      written (Auto.ServeDNS env a ctx w r).calls = [] ∧
      (Auto.ServeDNS env a ctx w r).w = w) ∧
    (∀ z, env.QClass { W := w, Req := r } = dns.ClassINET →
      middleware.Zones.Matches a.Zones.Origins (env.Name { W := w, Req := r }) ≠ "" →
      a.Zones.Z.lookup
        (middleware.Zones.Matches a.Zones.Names (env.Name { W := w, Req := r })) = some (some z) →
      ¬ (env.QType { W := w, Req := r } = dns.TypeAXFR ∨
        env.QType { W := w, Req := r } = dns.TypeIXFR) →
      (env.Lookup z { W := w, Req := r } (env.Name { W := w, Req := r })).2.2.2 =
        file.Result.ServerFailure →
      (Auto.ServeDNS env a ctx w r).rcode = dns.RcodeServerFailure ∧
      written (Auto.ServeDNS env a ctx w r).calls = [] ∧
      (Auto.ServeDNS env a ctx w r).w = w) ∧
    ((∀ c ∈ (Auto.ServeDNS env a ctx w r).calls, c.isNext = false ∧ c.isXfr = false) →
      ((Auto.ServeDNS env a ctx w r).rcode = dns.RcodeSuccess ∨
        (Auto.ServeDNS env a ctx w r).rcode = dns.RcodeServerFailure) ∧
      (Auto.ServeDNS env a ctx w r).w = w ++ written (Auto.ServeDNS env a ctx w r).calls ∧
      (written (Auto.ServeDNS env a ctx w r).calls ≠ [] ↔
        (Auto.ServeDNS env a ctx w r).rcode = dns.RcodeSuccess) ∧
      ((Auto.ServeDNS env a ctx w r).rcode = dns.RcodeServerFailure →
        written (Auto.ServeDNS env a ctx w r).calls = [] ∧
        (Auto.ServeDNS env a ctx w r).w = w)) := by
  refine ⟨?_, ?_, ?_, ?_, ?_, ?_⟩
  · intro hw
    rcases (ServeDNS_run_cases env a ctx w r).2 with h | h | h
    · exact absurd h.2.2.1 hw
    · exact absurd h.1 hw
    · obtain ⟨m, h1, h2, _⟩ := h
      exact ⟨h1, h2⟩
  · intro z hc hm hz hq hr
    have hf := ServeDNS_answer_fields env a ctx w r z _ hc hm hz hq
      (show switchOn _ _ = some _ by rw [hr]; rfl)
    exact ⟨⟨_, hf.1, rfl, hf.2.1⟩, hf.2.2.2.1, hf.2.2.2.2⟩
  · intro hc
    rw [ServeDNS_class env a ctx w r hc]
    simp [written]
  · intro hc hm hz
    rw [ServeDNS_missing env a ctx w r hc hm hz]
    simp [written]
  · intro z hc hm hz hq hr
    rw [ServeDNS_lookup_failure env a ctx w r z hc hm hz hq hr]
    simp [written]
  · intro hnd
    rcases (ServeDNS_run_cases env a ctx w r).2 with h | h | h
    · obtain ⟨h1, h2, h3, _⟩ := h
      refine ⟨Or.inr h1, by rw [h3, h2]; simp, ?_, fun _ => ⟨h3, h2⟩⟩
      rw [h3, h1]
      simp [dns.RcodeServerFailure, dns.RcodeSuccess]
    · obtain ⟨_, c, hmem, hdel⟩ := h
      have := hnd c hmem
      rcases hdel with hdel | hdel
      · rw [this.1] at hdel
        exact absurd hdel (by simp)
      · rw [this.2] at hdel
        exact absurd hdel (by simp)
    · obtain ⟨m, h1, _, h3, h4, _⟩ := h
      refine ⟨Or.inl h1, by rw [h4, h3], ?_, ?_⟩
      · rw [h4, h1]
        simp
      · intro hsf
        rw [h1] at hsf
        exact absurd hsf (by simp [dns.RcodeServerFailure, dns.RcodeSuccess])

/-- C11 at the query `missing.example.` against the one-zone table with the
lookup result NameError: a message is written and the status is RcodeSuccess. -/
theorem ServeDNS_write_iff_success_witness :
    written (Auto.ServeDNS (sampleEnv ([], ["soa"], [], file.Result.NameError))
        sampleAuto () [] (sampleQuery "missing.example." 1 1)).calls ≠ [] ∧
    (Auto.ServeDNS (sampleEnv ([], ["soa"], [], file.Result.NameError))
        sampleAuto () [] (sampleQuery "missing.example." 1 1)).rcode = dns.RcodeSuccess ∧
    (Auto.ServeDNS (sampleEnv ([], ["soa"], [], file.Result.NameError))
        sampleAuto () [] (sampleQuery "missing.example." 1 1)).err = none :=
  ⟨by decide,
   (ServeDNS_write_iff_success (sampleEnv ([], ["soa"], [], file.Result.NameError))
      sampleAuto () [] (sampleQuery "missing.example." 1 1)).1 (by decide)⟩

/-- C12: `ServeDNS` is read-only on the zone table.  For every request and every
table, the table after the run equals the table before it: the same map, the
same names, the same origins, and the read lock released as often as taken.  The
run reads at most one map entry. -/
theorem ServeDNS_table_unchanged (env : Env Ctx Zone RR) (a : Auto Ctx Zone RR) (ctx : Ctx)
    (w : dns.ResponseWriter RR) (r : dns.Msg RR) :
    (Auto.ServeDNS env a ctx w r).zones = a.Zones ∧
    (Auto.ServeDNS env a ctx w r).zones.Z = a.Zones.Z ∧
    (Auto.ServeDNS env a ctx w r).zones.Names = a.Zones.Names ∧
    (Auto.ServeDNS env a ctx w r).zones.Origins = a.Zones.Origins ∧
    (Auto.ServeDNS env a ctx w r).zones.readers = a.Zones.readers ∧
    ((Auto.ServeDNS env a ctx w r).calls.filter Call.isZ).length ≤ 1 := by
  have hz := (ServeDNS_run_cases env a ctx w r).1
  refine ⟨hz, by rw [hz], by rw [hz], by rw [hz], by rw [hz], ?_⟩
  rcases ServeDNS_calls_cases env a ctx w r with h | h | ⟨_, h⟩ | ⟨_, _, h⟩ | ⟨_, _, _, h⟩ |
      ⟨_, _, _, _, _, _, h⟩ <;>
    rw [h] <;> simp [List.filter, Call.isZ]

end claims

end auto
